import Mathlib

set_option maxRecDepth 100000

/-!
Verification of the Redshift-to-Snowflake sync connector
(`src/connector.py`, `src/app.py`).

The development shallow-embeds the connector's core: the watermark query
builder `get_query` (connector.py lines 80-83), the type maps
(lines 54-61 and 124-129), the schema reconciler
`create_table_if_not_exists` (lines 53-78), the extraction engine
`update` (lines 85-171) and the UI progress adapter
`redshift_to_snowflake_for_ui` (lines 173-196).

Modelling conventions:
* A source row is abstracted to its primary-key identity (`pk`) and its
  replication-key value (`key`); the other column values never influence
  the engine's control flow, cursors, batching or event structure.
* The replication-key value type `K` carries the source store's native
  linear order (spec section 4.4: the engine trusts the source's
  `ORDER BY`); concrete scenarios instantiate `K := Nat`.
* The source store is modelled by `src : String → List (Row K)` giving,
  per table name, the table's rows in the ascending replication-key
  order the store's `ORDER BY` would produce; `runQuery` executes the
  SQL built by `get_query` (lower-bound filter `>=`, `LIMIT`).
* The generator's `yield`s become an explicit event list, the Snowflake
  `executemany` bulk inserts an explicit write trace, and the Snowflake
  schema state an explicit list of existing (uppercased) table names.
* The caller-supplied cancellation predicate `cancel_flag` is polled;
  polls are numbered 0,1,2,... in order, so the flag is modelled as
  `cancel : Nat → Bool` applied to an explicit poll counter.
* The outer `while True` query loop of `update` (line 114) has no
  structural termination measure in the source — and indeed does not
  terminate on an empty query result — so it runs on explicit fuel; an
  exhausted fuel is reported as `RunExit.outOfFuel`.
* Python string `upper()` is modelled by `strUpper` (ASCII uppercase,
  which is what the identifiers involved use).
-/

namespace Connector

/-- Uppercase conversion of one ASCII character, modelling Python `str.upper`
on the identifier alphabet. -/
def charUpper (c : Char) : Char :=
  if 97 ≤ c.toNat ∧ c.toNat ≤ 122 then Char.ofNat (c.toNat - 32) else c

/-- Uppercase conversion of a string, modelling Python `str.upper()`. -/
def strUpper (s : String) : String := String.mk (s.toList.map charUpper)

/-- Replacement of every dot by an underscore, modelling
`table_name.replace(".", "_")` at connector.py line 150. -/
def replaceDot (s : String) : String :=
  String.mk (s.toList.map (fun c => if c = Char.ofNat 46 then Char.ofNat 95 else c))

/-- A single-quote character as a string (used by the SQL text built at
connector.py line 83). -/
def squote : String := String.singleton (Char.ofNat 39)

/-- A source row, abstracted to its primary-key identity `pk` and its
replication-key value `key` (the only column the engine inspects, via
`records[-1][replication_key]` at connector.py line 157). -/
structure Row (K : Type) where
  pk : Nat
  key : K
deriving DecidableEq, Repr

/-- An event yielded by the `update` generator: `op.upsert` (line 150) or
`op.checkpoint` (line 167). -/
inductive Ev (K : Type) where
  | upsert (table : String) (row : Row K)
  | checkpoint (cursors : List (String × Option K))
deriving DecidableEq

/-- Exit condition of an engine run: the generator finished (line 171),
returned on a cancellation poll (lines 102-104, 115-117, 138-140), or
the explicit fuel of the model ran out while the source's unbounded
`while True` loop (line 114) was still spinning. -/
inductive RunExit where
  | completed
  | cancelled
  | outOfFuel
deriving DecidableEq, Repr

/-- Lookup in a Python-dict-like association list (`state.get`, line 111). -/
def dictGet {α : Type} : List (String × α) → String → Option α
  | [], _ => none
  | (k2, v) :: rest, k => if k2 = k then some v else dictGet rest k

/-- Assignment `d[k] = v` on a Python-dict-like association list
(`table_cursors[table_cursor_key] = max_cursor_value`, line 164):
replaces the value in place if the key is present, else appends. -/
def dictInsert {α : Type} : List (String × α) → String → α → List (String × α)
  | [], k, v => [(k, v)]
  | (k2, v2) :: rest, k, v =>
    if k2 = k then (k, v) :: rest else (k2, v2) :: dictInsert rest k v

/-- Decomposition of a list into consecutive chunks of `p` elements
(the last chunk possibly shorter), with explicit structural fuel `n`;
`chunksGo p n l` is the canonical decomposition whenever `n ≥ l.length`.
For `p = 0` the result is `[]`, matching `fetchmany(0)` returning no rows. -/
def chunksGo {α : Type} (p : Nat) : Nat → List α → List (List α)
  | 0, _ => []
  | _ + 1, [] => []
  | n + 1, x :: xs =>
    if p = 0 then []
    else (x :: xs.take (p - 1)) :: chunksGo p n (xs.drop (p - 1))

/-- Successive results of `redshift_cursor.fetchmany(p)` (line 142) over one
query's result set: the result list cut into chunks of `p` rows. -/
def chunks {α : Type} (p : Nat) (l : List α) : List (List α) :=
  chunksGo p l.length l

variable {K : Type} [LinearOrder K]

/-- Execution, by the source store, of the SQL text built by `get_query`
(lines 80-83): keep the rows at or above the cursor (`>= current_cursor`,
inclusive), in ascending replication-key order (the input list is the
table in `ORDER BY` order), limited to `limit` rows (`LIMIT batch_size`). -/
def runQuery (tbl : List (Row K)) (cursor : Option K) (limit : Nat) : List (Row K) :=
  (match cursor with
   | none => tbl
   | some c => tbl.filter (fun r => c ≤ r.key)).take limit

/-- The Redshift-to-Snowflake type map of `create_table_if_not_exists`
(connector.py lines 54-61), with the `.get(..., 'VARCHAR')` default of
line 73. -/
def type_mapping (t : String) : String :=
  if t = "bigint" then "NUMBER"
  else if t = "integer" then "NUMBER"
  else if t = "int8" then "NUMBER"
  else if t = "int2" then "NUMBER"
  else if t = "smallint" then "NUMBER"
  else if t = "double precision" then "DOUBLE"
  else if t = "real" then "NUMBER"
  else if t = "float" then "NUMBER(38,2)"
  else if t = "timestamp with time zone" then "TIMESTAMP_TZ"
  else if t = "timestamp without time zone" then "TIMESTAMP_TZ"
  else if t = "timestamp" then "TIMESTAMP_TZ"
  else if t = "timestamptz" then "TIMESTAMP_TZ"
  else if t = "boolean" then "BOOLEAN"
  else if t = "bool" then "BOOLEAN"
  else if t = "character varying" then "VARCHAR"
  else if t = "varchar" then "VARCHAR"
  else if t = "char" then "VARCHAR"
  else if t = "nvarchar" then "TEXT"
  else "VARCHAR"

/-- The Redshift type-code map of `update` (connector.py lines 124-129),
with the `.get(..., 'varchar')` default of line 130. -/
def type_code_map (code : Nat) : String :=
  if code = 16 then "boolean"
  else if code = 20 then "bigint"
  else if code = 21 then "int2"
  else if code = 23 then "integer"
  else if code = 25 then "text"
  else if code = 700 then "real"
  else if code = 701 then "double precision"
  else if code = 1042 then "char"
  else if code = 1043 then "varchar"
  else if code = 1082 then "date"
  else if code = 1114 then "timestamp without time zone"
  else if code = 1184 then "timestamp with time zone"
  else if code = 1700 then "float"
  else "varchar"

/-- Composition of the two maps as `update` applies them: a Redshift
numeric type code resolves to a Redshift type name (line 130), which the
schema reconciler resolves to a Snowflake type (line 73). -/
def snowflakeTypeOfCode (code : Nat) : String :=
  type_mapping (type_code_map code)

/-- The `get_query` watermark query builder (connector.py lines 80-83).
Note `if not current_cursor` is Python truthiness: the cursor counts as
absent when it is `None` or the empty string. -/
def pyFalsy : Option String → Bool
  | none => true
  | some s => s.isEmpty

/-- The SQL text built by `get_query` (connector.py lines 80-83). -/
def get_query (current_cursor : Option String) (table_name replication_key : String)
    (batch_size : Nat) : String :=
  if pyFalsy current_cursor then
    "SELECT * FROM " ++ table_name ++ " ORDER BY " ++ replication_key ++
      " ASC LIMIT " ++ toString batch_size
  else
    "SELECT * FROM " ++ table_name ++ " WHERE " ++ replication_key ++ " >= " ++
      squote ++ current_cursor.getD "" ++ squote ++ " ORDER BY " ++ replication_key ++
      " ASC LIMIT " ++ toString batch_size

/-- The `INSERT` statement text built for the Snowflake bulk write
(connector.py lines 152-154). -/
def insert_stmt (database_name schema_name table_name : String)
    (column_names : List String) : String :=
  "INSERT INTO \"" ++ database_name ++ "\".\"" ++ schema_name ++ "\".\"" ++
    strUpper table_name ++ "\" (" ++
    String.intercalate ", " (column_names.map (fun c => "\"" ++ strUpper c ++ "\"")) ++
    ") VALUES (" ++
    String.intercalate ", " (List.replicate column_names.length "%s") ++ ")"

/-- The schema reconciler `create_table_if_not_exists` (connector.py
lines 53-78), reduced to its observable effect on the set of existing
destination tables: the `SHOW TABLES` introspection lists the existing
names, both sides are uppercased for the membership test (lines 63-66),
and if absent a table named `strUpper table_name` is created (line 76).
Returns the new existing-table list and whether a `CREATE TABLE` DDL was
issued. -/
def create_table_if_not_exists (existing : List String) (table_name : String) :
    List String × Bool :=
  if strUpper table_name ∈ existing.map strUpper then (existing, false)
  else (existing ++ [strUpper table_name], true)

/-- Accumulated outcome of the inner record loop (connector.py
lines 137-159) over one query's fetched sub-batches. -/
structure BatchOut (K : Type) where
  events : List (Ev K)
  writes : List (String × List (Row K))
  total : Nat
  maxCur : Option K
  poll : Nat
  canc : Bool
deriving DecidableEq

/-- The inner record loop of `update` (connector.py lines 137-159): poll
the cancellation flag (line 138), `fetchmany(batch_process_size)`
(line 142, modelled by the pre-computed chunk list), break on an empty
fetch (line 143), yield one upsert per record (line 150), bulk-write the
sub-batch (line 155), track `max_cursor_value` from the last record
(line 157), and break after a short fetch (line 158). -/
def recordLoop (cancel : Nat → Bool) (tname : String) (psize : Nat) :
    List (List (Row K)) → Nat → Option K → Nat → BatchOut K
  | chs, total, maxCur, poll =>
    if cancel poll then ⟨[], [], total, maxCur, poll + 1, true⟩
    else
      match chs with
      | [] => ⟨[], [], total, maxCur, poll + 1, false⟩
      | [] :: _ => ⟨[], [], total, maxCur, poll + 1, false⟩
      | (r :: rs) :: rest =>
        let result := r :: rs
        let events := result.map (fun x => Ev.upsert (replaceDot tname) x)
        let total2 := total + result.length
        let maxCur2 := some (result.getLast (List.cons_ne_nil r rs)).key
        if result.length < psize then
          ⟨events, [(tname, result)], total2, maxCur2, poll + 1, false⟩
        else
          let out := recordLoop cancel tname psize rest total2 maxCur2 (poll + 1)
          ⟨events ++ out.events, (tname, result) :: out.writes, out.total,
            out.maxCur, out.poll, out.canc⟩

/-- Accumulated outcome of the query loop (connector.py lines 114-165)
for one table. -/
structure TableOut (K : Type) where
  events : List (Ev K)
  writes : List (String × List (Row K))
  shows : Nat
  creates : Nat
  queryTotals : List Nat
  tcs : List (String × Option K)
  existing : List String
  poll : Nat
  exit : RunExit
deriving DecidableEq

/-- The per-table query loop of `update` (connector.py lines 114-165):
poll the cancellation flag (line 115), execute the watermark query
(lines 119-121), reconcile the destination table (line 132, one `SHOW
TABLES` introspection plus at most one `CREATE TABLE`), run the record
loop over the fetched sub-batches, then break when
`total_processed % batch_query_size != 0` (lines 161-162), otherwise
commit `max_cursor_value` into `table_cursors` and continue from it
(lines 164-165). The source's loop has no bound, hence the fuel. -/
def queryLoop (cancel : Nat → Bool) (qsize psize : Nat)
    (tbl : List (Row K)) (tname : String) :
    Nat → Option K → List (String × Option K) → List String → Nat → TableOut K
  | 0, _, tcs, existing, poll =>
    ⟨[], [], 0, 0, [], tcs, existing, poll, .outOfFuel⟩
  | fuel + 1, cursor, tcs, existing, poll =>
    if cancel poll then ⟨[], [], 0, 0, [], tcs, existing, poll + 1, .cancelled⟩
    else
      let res := runQuery tbl cursor qsize
      let ct := create_table_if_not_exists existing tname
      let ddl := if ct.2 then 1 else 0
      let b := recordLoop cancel tname psize (chunks psize res) 0 cursor (poll + 1)
      if b.canc then
        ⟨b.events, b.writes, 1, ddl, [], tcs, ct.1, b.poll, .cancelled⟩
      else if b.total % qsize ≠ 0 then
        ⟨b.events, b.writes, 1, ddl, [b.total], tcs, ct.1, b.poll, .completed⟩
      else
        let out := queryLoop cancel qsize psize tbl tname fuel b.maxCur
          (dictInsert tcs (tname ++ "_cursor") b.maxCur) ct.1 b.poll
        ⟨b.events ++ out.events, b.writes ++ out.writes, 1 + out.shows,
          ddl + out.creates, b.total :: out.queryTotals, out.tcs, out.existing,
          out.poll, out.exit⟩

/-- The `only_tables` skip test of `update` (connector.py line 107):
skip when the configuration names an `only_tables` list that does not
contain this table. -/
def skipTable (only_tables : Option (List String)) (tname : String) : Bool :=
  match only_tables with
  | none => false
  | some l => decide (tname ∉ l)

/-- Accumulated outcome of a whole `update` run. -/
structure UpdateOut (K : Type) where
  events : List (Ev K)
  writes : List (String × List (Row K))
  shows : Nat
  creates : Nat
  tcs : List (String × Option K)
  poll : Nat
  exit : RunExit
deriving DecidableEq

/-- The table loop of `update` (connector.py lines 101-167): poll the
cancellation flag before each table (line 102, before the `only_tables`
skip of line 107), read the table's prior cursor from the state
(lines 110-111), run the query loop, and on its normal completion yield
one `op.checkpoint(table_cursors)` (line 167) before the next table.
A cancelled or out-of-fuel query loop ends the whole run with the events
yielded so far and no further checkpoint. -/
def updateGo (cancel : Nat → Bool) (qsize psize : Nat)
    (only_tables : Option (List String)) (src : String → List (Row K))
    (state : List (String × K)) (fuel : Nat) :
    List String → List (String × Option K) → List String → Nat → UpdateOut K
  | [], tcs, _, poll => ⟨[], [], 0, 0, tcs, poll, .completed⟩
  | tname :: rest, tcs, existing, poll =>
    if cancel poll then ⟨[], [], 0, 0, tcs, poll + 1, .cancelled⟩
    else if skipTable only_tables tname then
      updateGo cancel qsize psize only_tables src state fuel rest tcs existing (poll + 1)
    else
      let t := queryLoop cancel qsize psize (src tname) tname fuel
        (dictGet state (tname ++ "_cursor")) tcs existing (poll + 1)
      match t.exit with
      | .completed =>
        let out := updateGo cancel qsize psize only_tables src state fuel rest
          t.tcs t.existing t.poll
        ⟨t.events ++ Ev.checkpoint t.tcs :: out.events, t.writes ++ out.writes,
          t.shows + out.shows, t.creates + out.creates, out.tcs, out.poll, out.exit⟩
      | e => ⟨t.events, t.writes, t.shows, t.creates, t.tcs, t.poll, e⟩

/-- Configuration slice consumed by `update` (connector.py lines 86-87
and 107). -/
structure Config where
  batch_process_size : Nat
  batch_query_size : Nat
  only_tables : Option (List String)

/-- The sync engine `update` (connector.py lines 85-171): one sync pass
over `table_list` against the source store `src`, starting from the
persisted `state` and an initially empty `table_cursors` (line 99), with
the destination initially holding the tables `dest0`.  The default
`cancel_flag` of the source (line 85) is `fun _ => false`. -/
def update (cfg : Config) (table_list : List String)
    (src : String → List (Row K)) (state : List (String × K))
    (cancel : Nat → Bool) (dest0 : List String) (fuel : Nat) : UpdateOut K :=
  updateGo cancel cfg.batch_query_size cfg.batch_process_size cfg.only_tables
    src state fuel table_list [] dest0 0

/-- An event of the UI progress stream produced by
`redshift_to_snowflake_for_ui` (connector.py lines 184-196). -/
inductive UiEvent (K : Type) where
  | progress (timestamp : String) (total_records : Nat) (batch : Nat)
      (checkpoint : List (String × Option K))
  | log (message : String)
deriving DecidableEq

/-- The event-translation fold of `redshift_to_snowflake_for_ui`
(connector.py lines 178-196): an upsert event increments the running
record counter, a checkpoint event increments the batch counter and
yields one progress record carrying the counters and the checkpoint
state. `now` stands for `str(datetime.utcnow())`, an input of the run. -/
def ui_adapter (now : String) :
    List (Ev K) → Nat → Nat → List (UiEvent K)
  | [], _, _ => []
  | Ev.upsert _ _ :: rest, total, batch => ui_adapter now rest (total + 1) batch
  | Ev.checkpoint cs :: rest, total, batch =>
    UiEvent.progress now total (batch + 1) cs :: ui_adapter now rest total (batch + 1)

/-- The UI entry point `redshift_to_snowflake_for_ui` (connector.py
lines 173-196): it invokes `update` with a fresh empty state
(`state = {}`, line 174) and without a cancellation predicate, so the
engine runs under its default always-false `cancel_flag` (line 85); its
`batch_size` and `only_tables` parameters appear nowhere in its body. -/
def redshift_to_snowflake_for_ui (cfg : Config)
    (table_list : List String) (src : String → List (Row K))
    (dest0 : List String) (fuel : Nat) (now : String)
    (batch_size : Nat) (only_tables : Option (List String)) : List (UiEvent K) :=
  ui_adapter now (update cfg table_list src [] (fun _ => false) dest0 fuel).events 0 0

end Connector

namespace Connector

/-- Test whether the first list is an initial segment of the second. -/
def listStarts {α : Type} [DecidableEq α] : List α → List α → Bool
  | [], _ => true
  | _ :: _, [] => false
  | a :: as, b :: bs => a = b && listStarts as bs

/-- Test whether the first list occurs as a contiguous segment of the second. -/
def listHasSeg {α : Type} [DecidableEq α] (pat : List α) : List α → Bool
  | [] => listStarts pat []
  | b :: bs => listStarts pat (b :: bs) || listHasSeg pat bs

/-- Test whether `pat` occurs as a contiguous substring of `s`. -/
def strHasSeg (pat s : String) : Bool := listHasSeg pat.toList s.toList

/-- Test whether `s` begins with `pat`. -/
def strStarts (pat s : String) : Bool := listStarts pat.toList s.toList

/-- Number of checkpoint events in an event list. -/
def countCheckpoints (evs : List (Ev K)) : Nat :=
  (evs.filter (fun e => match e with | .checkpoint _ => true | _ => false)).length

/-- Replication-key values of all rows of a destination write trace,
in write order. -/
def writtenKeys (ws : List (String × List (Row K))) : List K :=
  (ws.map (fun w => w.2.map Row.key)).flatten

end Connector

namespace Connector

/-- C6 (counterexample): the claim says that whenever `lastCursor` is
present the returned query adds exactly one inclusive `>=` filter.  The
source tests `if not current_cursor` (Python truthiness, connector.py
line 81), so a present but empty-string cursor yields the unfiltered
query: `get_query` applied to the cursor `some ""` returns the query
with no lower-bound filter at all — it contains no `>=` anywhere. -/
theorem C6_counterexample :
    get_query (some "") "orders" "updated_at" 10 =
      "SELECT * FROM " ++ "orders" ++ " ORDER BY " ++ "updated_at" ++
        " ASC LIMIT " ++ toString (10 : Nat) ∧
    strHasSeg ">=" (get_query (some "") "orders" "updated_at" 10) = false := by
  constructor
  · rfl
  · decide

/-- C6 (amended): for every table name, replication key and page size,
`get_query` with an absent cursor returns the query ordered ascending by
the replication key and limited to the page size with no lower-bound
filter, and with a present non-empty cursor it returns the same query
with exactly the one additional inclusive filter
`WHERE replicationKey >= 'cursor'`; a present empty-string cursor is
treated like an absent one. -/
theorem C6_get_query_shape (t rk : String) (n : Nat) :
    get_query none t rk n =
      "SELECT * FROM " ++ t ++ " ORDER BY " ++ rk ++ " ASC LIMIT " ++ toString n ∧
    ∀ c : String, c ≠ "" →
      get_query (some c) t rk n =
        "SELECT * FROM " ++ t ++ " WHERE " ++ rk ++ " >= " ++ squote ++ c ++ squote ++
          " ORDER BY " ++ rk ++ " ASC LIMIT " ++ toString n := by
  refine ⟨rfl, ?_⟩
  intro c hc
  have h : c.isEmpty = false := by
    cases hi : c.isEmpty
    · rfl
    · exact absurd ((String.isEmpty_iff c).mp hi) hc
  simp [get_query, pyFalsy, h]

/-- C6 (witness): the amended theorem applied to the table `orders`,
replication key `updated_at`, page size 10 and the concrete non-empty
cursor `X`. -/
theorem C6_get_query_shape_witness :
    get_query (some "X") "orders" "updated_at" 10 =
      "SELECT * FROM " ++ "orders" ++ " WHERE " ++ "updated_at" ++ " >= " ++
        squote ++ "X" ++ squote ++ " ORDER BY " ++ "updated_at" ++
        " ASC LIMIT " ++ toString (10 : Nat) :=
  (C6_get_query_shape "orders" "updated_at" 10).2 "X" (by decide)

/-- Evaluation of `type_code_map` at a code outside its known table:
the `.get` default `varchar` applies. -/
theorem type_code_map_unknown (code : Nat)
    (h16 : code ≠ 16) (h20 : code ≠ 20) (h21 : code ≠ 21) (h23 : code ≠ 23)
    (h25 : code ≠ 25) (h700 : code ≠ 700) (h701 : code ≠ 701)
    (h1042 : code ≠ 1042) (h1043 : code ≠ 1043) (h1082 : code ≠ 1082)
    (h1114 : code ≠ 1114) (h1184 : code ≠ 1184) (h1700 : code ≠ 1700) :
    type_code_map code = "varchar" := by
  unfold type_code_map
  rw [if_neg h16, if_neg h20, if_neg h21, if_neg h23, if_neg h25, if_neg h700,
    if_neg h701, if_neg h1042, if_neg h1043, if_neg h1082, if_neg h1114,
    if_neg h1184, if_neg h1700]

/-- C8 (counterexample): the claim says every temporal-family source type
maps to the timezone-aware timestamp destination type, but the source's
own type-code table recognizes code 1082 as the temporal type `date`
(connector.py line 127) and the Snowflake map has no `date` entry
(lines 54-61), so the composed mapping sends code 1082 to the default
`VARCHAR`, not `TIMESTAMP_TZ`. -/
theorem C8_counterexample :
    type_code_map 1082 = "date" ∧
    snowflakeTypeOfCode 1082 = "VARCHAR" ∧
    snowflakeTypeOfCode 1082 ≠ "TIMESTAMP_TZ" := by
  refine ⟨rfl, rfl, ?_⟩
  decide

/-- C8 (amended): the type mapping is total and deterministic — every
source type code resolves to a non-empty destination type; every code
outside the known code table resolves to the default variable-length
text type `VARCHAR`, as does every unmapped type-name string; the
timestamp-family source types, with or without timezone, all map to the
timezone-aware `TIMESTAMP_TZ` — but the temporal type `date` (code
1082), although recognized by the code table, falls through to the
default `VARCHAR`. -/
theorem C8_type_mapping_total :
    (∀ code : Nat, snowflakeTypeOfCode code ≠ "") ∧
    (∀ code : Nat,
      code ≠ 16 → code ≠ 20 → code ≠ 21 → code ≠ 23 → code ≠ 25 → code ≠ 700 →
      code ≠ 701 → code ≠ 1042 → code ≠ 1043 → code ≠ 1082 → code ≠ 1114 →
      code ≠ 1184 → code ≠ 1700 → snowflakeTypeOfCode code = "VARCHAR") ∧
    (snowflakeTypeOfCode 1114 = "TIMESTAMP_TZ" ∧
     snowflakeTypeOfCode 1184 = "TIMESTAMP_TZ" ∧
     type_mapping "timestamp" = "TIMESTAMP_TZ" ∧
     type_mapping "timestamptz" = "TIMESTAMP_TZ" ∧
     type_mapping "timestamp with time zone" = "TIMESTAMP_TZ" ∧
     type_mapping "timestamp without time zone" = "TIMESTAMP_TZ") ∧
    snowflakeTypeOfCode 1082 = "VARCHAR" := by
  refine ⟨?_, ?_, by decide, rfl⟩
  · intro code
    by_cases h16 : code = 16
    · subst h16; decide
    by_cases h20 : code = 20
    · subst h20; decide
    by_cases h21 : code = 21
    · subst h21; decide
    by_cases h23 : code = 23
    · subst h23; decide
    by_cases h25 : code = 25
    · subst h25; decide
    by_cases h700 : code = 700
    · subst h700; decide
    by_cases h701 : code = 701
    · subst h701; decide
    by_cases h1042 : code = 1042
    · subst h1042; decide
    by_cases h1043 : code = 1043
    · subst h1043; decide
    by_cases h1082 : code = 1082
    · subst h1082; decide
    by_cases h1114 : code = 1114
    · subst h1114; decide
    by_cases h1184 : code = 1184
    · subst h1184; decide
    by_cases h1700 : code = 1700
    · subst h1700; decide
    show type_mapping (type_code_map code) ≠ ""
    rw [type_code_map_unknown code h16 h20 h21 h23 h25 h700 h701 h1042 h1043
      h1082 h1114 h1184 h1700]
    decide
  · intro code h16 h20 h21 h23 h25 h700 h701 h1042 h1043 h1082 h1114 h1184 h1700
    show type_mapping (type_code_map code) = "VARCHAR"
    rw [type_code_map_unknown code h16 h20 h21 h23 h25 h700 h701 h1042 h1043
      h1082 h1114 h1184 h1700]
    decide

/-- C8 (witness): the amended theorem applied to the unmapped code 9999,
whose hypotheses are discharged by computation. -/
theorem C8_type_mapping_total_witness : snowflakeTypeOfCode 9999 = "VARCHAR" :=
  C8_type_mapping_total.2.1 9999 (by decide) (by decide) (by decide) (by decide)
    (by decide) (by decide) (by decide) (by decide) (by decide) (by decide)
    (by decide) (by decide) (by decide)

end Connector

namespace Connector

variable {K : Type} [LinearOrder K]

/-- Runs of the record loop under the engine's default always-false
cancellation flag never report cancellation. -/
theorem recordLoop_constFalse_canc (tname : String) (psize : Nat) :
    ∀ (chs : List (List (Row K))) (total : Nat) (mc : Option K) (poll : Nat),
      (recordLoop (fun _ => false) tname psize chs total mc poll).canc = false := by
  intro chs
  induction chs with
  | nil => intro total mc poll; simp [recordLoop]
  | cons c rest ih =>
    intro total mc poll
    cases c with
    | nil => simp [recordLoop]
    | cons r rs =>
      by_cases h : rs.length + 1 < psize
      · simp [recordLoop, h]
      · simp [recordLoop, h, ih]

/-- Runs of the query loop under the engine's default always-false
cancellation flag never exit with `cancelled`. -/
theorem queryLoop_constFalse_exit (qsize psize : Nat) (tbl : List (Row K)) (tname : String) :
    ∀ (fuel : Nat) (cursor : Option K) (tcs : List (String × Option K))
      (existing : List String) (poll : Nat),
      (queryLoop (fun _ => false) qsize psize tbl tname fuel cursor tcs existing poll).exit ≠
        RunExit.cancelled := by
  intro fuel
  induction fuel with
  | zero => intro cursor tcs existing poll; simp [queryLoop]
  | succ n ih =>
    intro cursor tcs existing poll
    have hb := recordLoop_constFalse_canc (K := K) tname psize
      (chunks psize (runQuery tbl cursor qsize)) 0 cursor (poll + 1)
    by_cases ht : (recordLoop (fun _ => false) tname psize
        (chunks psize (runQuery tbl cursor qsize)) 0 cursor (poll + 1)).total % qsize ≠ 0
    · simp [queryLoop, hb, ht]
    · simp [queryLoop, hb, ht, ih]

/-- Runs of the table loop under the engine's default always-false
cancellation flag never exit with `cancelled`. -/
theorem updateGo_constFalse_exit (qsize psize : Nat) (ot : Option (List String))
    (src : String → List (Row K)) (state : List (String × K)) (fuel : Nat) :
    ∀ (tls : List String) (tcs : List (String × Option K))
      (existing : List String) (poll : Nat),
      (updateGo (fun _ => false) qsize psize ot src state fuel tls tcs existing poll).exit ≠
        RunExit.cancelled := by
  intro tls
  induction tls with
  | nil => intro tcs existing poll; simp [updateGo]
  | cons tname rest ih =>
    intro tcs existing poll
    by_cases hskip : skipTable ot tname
    · simp [updateGo, hskip, ih]
    · rcases hexit : (queryLoop (fun _ => false) qsize psize (src tname) tname fuel
          (dictGet state (tname ++ "_cursor")) tcs existing (poll + 1)).exit with _ | _ | _
      · simp [updateGo, hskip, hexit, ih]
      · exact absurd hexit (queryLoop_constFalse_exit qsize psize (src tname) tname
          fuel _ tcs existing (poll + 1))
      · simp [updateGo, hskip, hexit]

/-- C10 (confirmed): `redshift_to_snowflake_for_ui` never reads its
`batch_size` and `only_tables` parameters, so two runs differing only in
those arguments produce identical output sequences; and it invokes the
engine with a fresh empty state and no cancellation predicate, so the
engine runs under the default always-false cancel flag and its run can
never exit with `cancelled`. -/
theorem C10_ui_ignores_args (cfg : Config) (table_list : List String)
    (src : String → List (Row K)) (dest0 : List String) (fuel : Nat) (now : String) :
    (∀ (b1 b2 : Nat) (o1 o2 : Option (List String)),
      redshift_to_snowflake_for_ui cfg table_list src dest0 fuel now b1 o1 =
        redshift_to_snowflake_for_ui cfg table_list src dest0 fuel now b2 o2) ∧
    (update cfg table_list src [] (fun _ => false) dest0 fuel).exit ≠
      RunExit.cancelled :=
  ⟨fun _ _ _ _ => rfl,
   updateGo_constFalse_exit cfg.batch_query_size cfg.batch_process_size
     cfg.only_tables src [] fuel table_list [] dest0 0⟩

end Connector

namespace Connector

variable {K : Type} [LinearOrder K]

/-- Modelled from the spec: the destination-side upsert consumer.  The
`op.upsert` events the engine yields (connector.py line 150) are applied
by the Fivetran SDK consumer, which is not part of this repository; per
the spec (section 4.3 and the glossary) an upsert "inserts a row or
overwrites the existing row sharing the same primary key", so the
consumer's destination table is a map from primary key to row. -/
def upsertApply (dest : Nat → Option (Row K)) : List (Ev K) → Nat → Option (Row K)
  | [] => dest
  | Ev.upsert _ r :: rest => upsertApply (fun p => if p = r.pk then some r else dest p) rest
  | Ev.checkpoint _ :: rest => upsertApply dest rest

/-- Last upsert event for primary key `p` in an event list, if any. -/
def lastUpsert (p : Nat) : List (Ev K) → Option (Row K)
  | [] => none
  | Ev.upsert _ r :: rest =>
    match lastUpsert p rest with
    | some r2 => some r2
    | none => if r.pk = p then some r else none
  | Ev.checkpoint _ :: rest => lastUpsert p rest

/-- The physical effect of the Snowflake bulk writes of one or more runs
(connector.py line 155): `executemany` with the plain `INSERT` statement
of line 154 appends every row of every sub-batch to the destination
table's row list — there is no key-based overwrite. -/
def applyInserts (dest : List (Row K)) (ws : List (String × List (Row K))) : List (Row K) :=
  dest ++ (ws.map Prod.snd).flatten

/-- Primary keys without a matching upsert event are left unchanged by the
upsert consumer. -/
theorem upsertApply_lastUpsert_none (p : Nat) :
    ∀ (evs : List (Ev K)) (dest : Nat → Option (Row K)),
      lastUpsert p evs = none → upsertApply dest evs p = dest p := by
  intro evs
  induction evs with
  | nil => intro dest _; rfl
  | cons e rest ih =>
    intro dest h
    cases e with
    | upsert t r =>
      cases hrest : lastUpsert p rest with
      | some r2 => simp [lastUpsert, hrest] at h
      | none =>
        have hpk : r.pk ≠ p := by
          intro hcontra
          simp [lastUpsert, hrest, hcontra] at h
        have := ih (fun q => if q = r.pk then some r else dest q) hrest
        simpa [upsertApply, Ne.symm hpk] using this
    | checkpoint cs =>
      simp only [lastUpsert] at h
      exact ih dest h

/-- A primary key's final value under the upsert consumer is its last
upsert event's row. -/
theorem upsertApply_lastUpsert_some (p : Nat) :
    ∀ (evs : List (Ev K)) (r0 : Row K) (dest : Nat → Option (Row K)),
      lastUpsert p evs = some r0 → upsertApply dest evs p = some r0 := by
  intro evs
  induction evs with
  | nil => intro r0 dest h; simp [lastUpsert] at h
  | cons e rest ih =>
    intro r0 dest h
    cases e with
    | upsert t r =>
      cases hrest : lastUpsert p rest with
      | some r2 =>
        have : r2 = r0 := by simpa [lastUpsert, hrest] using h
        subst this
        exact ih r2 _ hrest
      | none =>
        have hif : (if r.pk = p then some r else none) = some r0 := by
          simpa [lastUpsert, hrest] using h
        by_cases hpk : r.pk = p
        · have hr : r = r0 := by simpa [hpk] using hif
          subst hr
          have := upsertApply_lastUpsert_none p rest
            (fun q => if q = r.pk then some r else dest q) hrest
          simpa [upsertApply, hpk] using this
        · simp [hpk] at hif
    | checkpoint cs =>
      simp only [lastUpsert] at h
      exact ih r0 dest h

/-- Applying an upsert event sequence a second time changes nothing:
the upsert consumer is idempotent. -/
theorem upsertApply_idem (evs : List (Ev K)) (dest : Nat → Option (Row K)) :
    upsertApply (upsertApply dest evs) evs = upsertApply dest evs := by
  funext p
  cases h : lastUpsert p evs with
  | none =>
    rw [upsertApply_lastUpsert_none p evs _ h, upsertApply_lastUpsert_none p evs dest h]
  | some r0 =>
    rw [upsertApply_lastUpsert_some p evs r0 _ h, upsertApply_lastUpsert_some p evs r0 dest h]

/-- The engine run used to refute C2: one table with a single row. -/
def c2run : UpdateOut Nat :=
  update ⟨2, 2, none⟩ ["t"] (fun _ => [⟨0, 5⟩]) [] (fun _ => false) [] 5

/-- C2 (counterexample): the claim's justification — "destination writes
are idempotent upserts keyed by the table's primary key, not plain
inserts" — is false for the direct Snowflake write path: the bulk-write
statement built at connector.py lines 152-154 is a plain `INSERT INTO`,
and replaying the one-row pass's write trace a second time leaves the
physically written destination with the row duplicated instead of
unchanged. -/
theorem C2_counterexample :
    strStarts "INSERT INTO" (insert_stmt "DB" "SC" "tbl" ["id", "k"]) = true ∧
    applyInserts (applyInserts [] c2run.writes) c2run.writes ≠
      applyInserts [] c2run.writes := by
  constructor
  · decide
  · decide

/-- C2 (amended): re-running a pass re-emits the same events (the engine
is a function of its inputs), and the upsert event stream it emits is
idempotent for the destination-side upsert consumer keyed by primary
key: applying any engine run's events twice yields exactly the
destination map that applying them once yields.  The direct Snowflake
bulk write, by contrast, is a plain `INSERT` and duplicates rows when a
pass is re-run (see the counterexample); only the event-stream
destination, not the directly inserted row list, is re-run invariant. -/
theorem C2_upsert_stream_idempotent (cfg : Config) (table_list : List String)
    (src : String → List (Row K)) (state : List (String × K)) (cancel : Nat → Bool)
    (dest0 : List String) (fuel : Nat) (dest : Nat → Option (Row K)) :
    upsertApply (upsertApply dest (update cfg table_list src state cancel dest0 fuel).events)
        (update cfg table_list src state cancel dest0 fuel).events =
      upsertApply dest (update cfg table_list src state cancel dest0 fuel).events :=
  upsertApply_idem _ dest

end Connector

namespace Connector

variable {K : Type} [LinearOrder K]

/-- Spin lemma behind the empty-result divergence: when a query iteration
fetches no rows at all, `total_processed` stays 0, the exit test of
connector.py line 161 is not taken (`0 % batch_query_size == 0`), the
cursor recommitted at lines 164-165 is the incoming cursor, and the loop
re-issues the identical query — so the query loop never completes, it
only runs out of fuel, yielding no events and writing nothing. -/
theorem queryLoop_empty_spins (qsize psize : Nat) (tbl : List (Row K)) (tname : String)
    (cursor : Option K)
    (h : chunks psize (runQuery tbl cursor qsize) = []) :
    ∀ (fuel : Nat) (tcs : List (String × Option K)) (existing : List String) (poll : Nat),
      (queryLoop (fun _ => false) qsize psize tbl tname fuel cursor tcs existing poll).exit
          = RunExit.outOfFuel ∧
      (queryLoop (fun _ => false) qsize psize tbl tname fuel cursor tcs existing poll).events
          = [] ∧
      (queryLoop (fun _ => false) qsize psize tbl tname fuel cursor tcs existing poll).writes
          = [] := by
  intro fuel
  induction fuel with
  | zero => intro tcs existing poll; refine ⟨rfl, rfl, rfl⟩
  | succ n ih =>
    intro tcs existing poll
    obtain ⟨h1, h2, h3⟩ := ih (dictInsert tcs (tname ++ "_cursor") cursor)
      (create_table_if_not_exists existing tname).1 (poll + 2)
    simp [queryLoop, h, recordLoop, h1, h2, h3]

/-- C3 (code bug): the claim — the per-table extraction loop terminates,
exiting exactly when a query returns fewer rows than the query size — is
what the spec states (section 4.4 step 5), but the code's exit test
`total_processed % batch_query_size != 0` (connector.py line 161) is not
taken when a query returns zero rows, because `0 % batch_query_size == 0`.
On an empty source table the first query already returns zero rows and
the engine re-issues the identical query forever: for every fuel bound
the run is still unfinished, has yielded no events and no checkpoint,
and has written nothing. -/
theorem C3_empty_table_spins (qsize psize fuel : Nat) (tname : String) :
    (update ⟨psize, qsize, none⟩ [tname] (fun _ => ([] : List (Row Nat)))
        [] (fun _ => false) [] fuel).exit = RunExit.outOfFuel ∧
    (update ⟨psize, qsize, none⟩ [tname] (fun _ => ([] : List (Row Nat)))
        [] (fun _ => false) [] fuel).events = [] ∧
    (update ⟨psize, qsize, none⟩ [tname] (fun _ => ([] : List (Row Nat)))
        [] (fun _ => false) [] fuel).writes = [] := by
  have h : chunks psize (runQuery ([] : List (Row Nat)) none qsize) = [] := by
    simp [runQuery, chunks, chunksGo]
  obtain ⟨h1, h2, h3⟩ := queryLoop_empty_spins qsize psize
    ([] : List (Row Nat)) tname none h fuel [] [] 1
  simp [update, updateGo, skipTable, dictGet, h1, h2, h3]

/-- C4 (code bug): with a prior cursor and zero matching source rows the
claim (and the spec's section 8 scenario) says the pass completes with
no events, no writes and the table state unchanged.  The code indeed
yields no events and attempts no destination write, but the pass never
completes: zero fetched rows leave `total_processed = 0`, the modulo
exit test of connector.py line 161 is not taken, and the engine
re-issues the identical query forever, never reaching the checkpoint of
line 167 nor the end of the pass. -/
theorem C4_zero_rows_spins (fuel : Nat) :
    (update ⟨2, 2, none⟩ ["t"] (fun _ => [(⟨0, 5⟩ : Row Nat)])
        [("t_cursor", 100)] (fun _ => false) [] fuel).events = [] ∧
    (update ⟨2, 2, none⟩ ["t"] (fun _ => [(⟨0, 5⟩ : Row Nat)])
        [("t_cursor", 100)] (fun _ => false) [] fuel).writes = [] ∧
    (update ⟨2, 2, none⟩ ["t"] (fun _ => [(⟨0, 5⟩ : Row Nat)])
        [("t_cursor", 100)] (fun _ => false) [] fuel).exit = RunExit.outOfFuel := by
  have hget : dictGet [("t_cursor", (100 : Nat))] "t_cursor" = some 100 := by
    decide
  have h : chunks 2 (runQuery [(⟨0, 5⟩ : Row Nat)] (some 100) 2) = [] := by decide
  obtain ⟨h1, h2, h3⟩ := queryLoop_empty_spins 2 2 [(⟨0, 5⟩ : Row Nat)] "t"
    (some 100) h fuel [] [] 1
  simp [update, updateGo, skipTable, hget, h1, h2, h3]

end Connector

namespace Connector

/-- The 1200-row source table of the spec's scenario: strictly increasing
replication-key values 0..1199. -/
def rows1200 : List (Row Nat) := (List.range 1200).map (fun i => ⟨i, i⟩)

/-- Boolean test that a row list has strictly increasing replication-key
values (the scenario's premise). -/
def strictlyInc : List (Row Nat) → Bool
  | [] => true
  | [_] => true
  | a :: b :: rest => decide (a.key < b.key) && strictlyInc (b :: rest)

/-- The scenario run of C5: table `orders`, no prior cursor,
`batch_query_size = 1000`, `batch_process_size = 500`. -/
def c5run : UpdateOut Nat :=
  update ⟨500, 1000, none⟩ ["orders"] (fun _ => rows1200) [] (fun _ => false) [] 10

/-- The same scenario at table level, exposing the per-iteration fetch
totals. -/
def c5table : TableOut Nat :=
  queryLoop (fun _ => false) 1000 500 rows1200 "orders" 10 none [] [] 1

/-- C5 (counterexample): on the spec's 1200-row scenario the engine does
perform 2 query iterations, but the second delivers 201 rows, not 200
(the inclusive `>=` filter re-delivers the boundary row 999), the three
sub-batch writes are 500, 500 and 201 rows, and the one CheckpointEvent
carries `orders_cursor = 999` — the key of the last row of the first
(full) query page — not the maximum key 1199 of the rows written. -/
theorem C5_counterexample :
    c5table.queryTotals = [1000, 201] ∧
    c5run.writes.map (fun w => w.2.length) = [500, 500, 201] ∧
    dictGet c5run.tcs "orders_cursor" = some (some 999) ∧
    (999 : Nat) ≠ 1199 ∧
    strictlyInc rows1200 = true ∧
    rows1200.length = 1200 := by
  refine ⟨by decide, by decide, by decide, by decide, by decide, by decide⟩

/-- C5 (amended): for the scenario table `orders` with no prior cursor,
`batch_query_size = 1000`, `batch_process_size = 500` and 1200 rows with
strictly increasing replication keys, the engine performs exactly 2
query iterations delivering 1000 then 201 rows (the boundary row is
re-delivered by the inclusive filter), exactly 3 sub-batch writes of
500, 500 and 201 rows, emits exactly one CheckpointEvent as the final
event, and that checkpoint's `orders_cursor` is 999, the key of the last
row of the last full query page, which lags the maximum key 1199
actually written. -/
theorem C5_scenario :
    c5run.exit = RunExit.completed ∧
    c5table.queryTotals = [1000, 201] ∧
    c5run.writes.map (fun w => w.2.length) = [500, 500, 201] ∧
    countCheckpoints c5run.events = 1 ∧
    c5run.events.length = 1202 ∧
    c5run.events.getLast? = some (Ev.checkpoint [("orders" ++ "_cursor", some 999)]) := by
  refine ⟨by decide, by decide, by decide, by decide, by decide, by decide⟩

end Connector

namespace Connector

variable {K : Type} [LinearOrder K]

/-- Value of `Char.ofNat` on codepoints below the surrogate range. -/
theorem toNat_ofNat_valid (n : Nat) (h : n < 55296) : (Char.ofNat n).toNat = n := by
  have hv : n.isValidChar := Or.inl h
  rw [Char.ofNat, dif_pos hv]
  simp [Char.ofNatAux, Char.toNat, UInt32.toNat]

/-- Uppercasing a character twice is the same as uppercasing it once. -/
theorem charUpper_idem (c : Char) : charUpper (charUpper c) = charUpper c := by
  by_cases h : 97 ≤ c.toNat ∧ c.toNat ≤ 122
  · have h1 : charUpper c = Char.ofNat (c.toNat - 32) := by
      unfold charUpper; exact if_pos h
    have hlt : c.toNat - 32 < 55296 := by omega
    have h2 : ¬(97 ≤ c.toNat - 32 ∧ c.toNat - 32 ≤ 122) := by omega
    rw [h1]
    unfold charUpper
    rw [toNat_ofNat_valid _ hlt, if_neg h2]
  · have h1 : charUpper c = c := by unfold charUpper; exact if_neg h
    rw [h1, h1]

/-- Uppercasing a string twice is the same as uppercasing it once. -/
theorem strUpper_idem (s : String) : strUpper (strUpper s) = strUpper s := by
  simp only [strUpper, String.toList, String.data]
  rw [List.map_map]
  congr 1
  exact List.map_congr_left (fun c _ => charUpper_idem c)

/-- Once the destination already holds the table (up to case), no later
query iteration of its query loop issues any DDL. -/
theorem queryLoop_creates_zero (cancel : Nat → Bool) (qsize psize : Nat)
    (tbl : List (Row K)) (tname : String) :
    ∀ (fuel : Nat) (cursor : Option K) (tcs : List (String × Option K))
      (existing : List String) (poll : Nat),
      strUpper tname ∈ existing.map strUpper →
      (queryLoop cancel qsize psize tbl tname fuel cursor tcs existing poll).creates = 0 := by
  intro fuel
  induction fuel with
  | zero => intro cursor tcs existing poll _; rfl
  | succ n ih =>
    intro cursor tcs existing poll hmem
    have hct : create_table_if_not_exists existing tname = (existing, false) := by
      simp [create_table_if_not_exists, hmem]
    by_cases hc : cancel poll
    · simp [queryLoop, hc]
    · by_cases hbc : (recordLoop cancel tname psize
          (chunks psize (runQuery tbl cursor qsize)) 0 cursor (poll + 1)).canc
      · simp [queryLoop, hc, hct, hbc]
      · by_cases hbt : (recordLoop cancel tname psize
            (chunks psize (runQuery tbl cursor qsize)) 0 cursor (poll + 1)).total % qsize = 0
        · have hrec := ih (recordLoop cancel tname psize
              (chunks psize (runQuery tbl cursor qsize)) 0 cursor (poll + 1)).maxCur
            (dictInsert tcs (tname ++ "_cursor")
              (recordLoop cancel tname psize
                (chunks psize (runQuery tbl cursor qsize)) 0 cursor (poll + 1)).maxCur)
            existing
            (recordLoop cancel tname psize
              (chunks psize (runQuery tbl cursor qsize)) 0 cursor (poll + 1)).poll hmem
          simp [queryLoop, hc, hct, hbc, hbt, hrec]
        · simp [queryLoop, hc, hct, hbc, hbt]

/-- A table's query loop issues at most one `CREATE TABLE` DDL per run:
a run starting with the table absent creates it in its first iteration
and never again, a run starting with it present never creates it. -/
theorem queryLoop_creates_le_one (cancel : Nat → Bool) (qsize psize : Nat)
    (tbl : List (Row K)) (tname : String) (fuel : Nat) (cursor : Option K)
    (tcs : List (String × Option K)) (existing : List String) (poll : Nat) :
    (queryLoop cancel qsize psize tbl tname fuel cursor tcs existing poll).creates ≤ 1 := by
  by_cases hmem : strUpper tname ∈ existing.map strUpper
  · rw [queryLoop_creates_zero cancel qsize psize tbl tname fuel cursor tcs existing poll hmem]
    exact Nat.zero_le 1
  · cases fuel with
    | zero => exact Nat.zero_le 1
    | succ n =>
      have hct : create_table_if_not_exists existing tname =
          (existing ++ [strUpper tname], true) := by
        simp [create_table_if_not_exists, hmem]
      have hmem2 : strUpper tname ∈ (existing ++ [strUpper tname]).map strUpper := by
        simp [strUpper_idem]
      by_cases hc : cancel poll
      · simp [queryLoop, hc]
      · by_cases hbc : (recordLoop cancel tname psize
            (chunks psize (runQuery tbl cursor qsize)) 0 cursor (poll + 1)).canc
        · simp [queryLoop, hc, hct, hbc]
        · by_cases hbt : (recordLoop cancel tname psize
              (chunks psize (runQuery tbl cursor qsize)) 0 cursor (poll + 1)).total % qsize = 0
          · have hrec := queryLoop_creates_zero cancel qsize psize tbl tname n
              (recordLoop cancel tname psize
                (chunks psize (runQuery tbl cursor qsize)) 0 cursor (poll + 1)).maxCur
              (dictInsert tcs (tname ++ "_cursor")
                (recordLoop cancel tname psize
                  (chunks psize (runQuery tbl cursor qsize)) 0 cursor (poll + 1)).maxCur)
              (existing ++ [strUpper tname])
              (recordLoop cancel tname psize
                (chunks psize (runQuery tbl cursor qsize)) 0 cursor (poll + 1)).poll hmem2
            simp [queryLoop, hc, hct, hbc, hbt, hrec]
          · simp [queryLoop, hc, hct, hbc, hbt]

/-- In a completed table run, the number of `SHOW TABLES` introspection
round-trips equals the number of query iterations performed (one per
iteration, connector.py line 132 inside the line-114 loop). -/
theorem queryLoop_shows_iters (cancel : Nat → Bool) (qsize psize : Nat)
    (tbl : List (Row K)) (tname : String) :
    ∀ (fuel : Nat) (cursor : Option K) (tcs : List (String × Option K))
      (existing : List String) (poll : Nat),
      (queryLoop cancel qsize psize tbl tname fuel cursor tcs existing poll).exit =
        RunExit.completed →
      (queryLoop cancel qsize psize tbl tname fuel cursor tcs existing poll).shows =
        (queryLoop cancel qsize psize tbl tname fuel cursor tcs existing poll).queryTotals.length := by
  intro fuel
  induction fuel with
  | zero => intro cursor tcs existing poll h; cases h
  | succ n ih =>
    intro cursor tcs existing poll h
    by_cases hc : cancel poll
    · simp [queryLoop, hc] at h
    · by_cases hbc : (recordLoop cancel tname psize
          (chunks psize (runQuery tbl cursor qsize)) 0 cursor (poll + 1)).canc
      · simp [queryLoop, hc, hbc] at h
      · by_cases hbt : (recordLoop cancel tname psize
            (chunks psize (runQuery tbl cursor qsize)) 0 cursor (poll + 1)).total % qsize = 0
        · have h2 : (queryLoop cancel qsize psize tbl tname n
              (recordLoop cancel tname psize
                (chunks psize (runQuery tbl cursor qsize)) 0 cursor (poll + 1)).maxCur
              (dictInsert tcs (tname ++ "_cursor")
                (recordLoop cancel tname psize
                  (chunks psize (runQuery tbl cursor qsize)) 0 cursor (poll + 1)).maxCur)
              (create_table_if_not_exists existing tname).1
              (recordLoop cancel tname psize
                (chunks psize (runQuery tbl cursor qsize)) 0 cursor (poll + 1)).poll).exit =
              RunExit.completed := by
            simpa [queryLoop, hc, hbc, hbt] using h
          have hrec := ih _ _ _ _ h2
          simp [queryLoop, hc, hbc, hbt, hrec]
          omega
        · simp [queryLoop, hc, hbc, hbt]

/-- The three-row source table of the C9 run. -/
def rows3 : List (Row Nat) := [⟨0, 0⟩, ⟨1, 1⟩, ⟨2, 2⟩]

/-- The C9 run: one table of three rows, `batch_query_size = 2`, so the
run needs three query iterations. -/
def c9run : UpdateOut Nat :=
  update ⟨2, 2, none⟩ ["t"] (fun _ => rows3) [] (fun _ => false) [] 10

/-- C9 (counterexample): the claim says exactly one schema-introspection
round-trip per table per run, but `create_table_if_not_exists` is called
once per query iteration (connector.py line 132 sits inside the
line-114 query loop): a completed single-table run over three rows with
`batch_query_size = 2` performs three query iterations and hence three
`SHOW TABLES` introspections, not one — while still issuing only one
`CREATE TABLE` DDL. -/
theorem C9_counterexample :
    c9run.exit = RunExit.completed ∧
    c9run.shows = 3 ∧
    c9run.shows ≠ 1 ∧
    c9run.creates = 1 := by
  refine ⟨by decide, by decide, by decide, by decide⟩

/-- C9 (amended): table existence is checked case-insensitively (both
sides of the membership test are uppercased), an existing table is never
altered (the existing-table state is returned unchanged and no DDL is
issued), and per table per run the reconciler performs at most one DDL
statement; however it performs one schema-introspection round-trip per
query iteration — exactly `queryTotals.length` of them in a completed
run — which exceeds one whenever a table needs more than one query
iteration. -/
theorem C9_schema_reconciler (existing : List String) (tn : String)
    (cancel : Nat → Bool) (qsize psize : Nat) (tbl : List (Row K)) (tname : String)
    (fuel : Nat) (cursor : Option K) (tcs : List (String × Option K))
    (existing2 : List String) (poll : Nat) :
    ((create_table_if_not_exists existing tn).2 = false ↔
      strUpper tn ∈ existing.map strUpper) ∧
    (strUpper tn ∈ existing.map strUpper →
      (create_table_if_not_exists existing tn).1 = existing) ∧
    (queryLoop cancel qsize psize tbl tname fuel cursor tcs existing2 poll).creates ≤ 1 ∧
    ((queryLoop cancel qsize psize tbl tname fuel cursor tcs existing2 poll).exit =
        RunExit.completed →
      (queryLoop cancel qsize psize tbl tname fuel cursor tcs existing2 poll).shows =
        (queryLoop cancel qsize psize tbl tname fuel cursor tcs existing2 poll).queryTotals.length) := by
  refine ⟨?_, ?_, queryLoop_creates_le_one cancel qsize psize tbl tname fuel cursor tcs existing2 poll,
    queryLoop_shows_iters cancel qsize psize tbl tname fuel cursor tcs existing2 poll⟩
  · by_cases hmem : strUpper tn ∈ existing.map strUpper
    · simp [create_table_if_not_exists, hmem]
    · simp [create_table_if_not_exists, hmem]
  · intro hmem
    simp [create_table_if_not_exists, hmem]

/-- C9 (witness): the amended theorem applied to a destination that
already holds the table under a different case, and to the concrete
completed three-iteration run of the counterexample. -/
theorem C9_schema_reconciler_witness :
    (create_table_if_not_exists ["T"] "t").1 = ["T"] ∧
    (queryLoop (fun _ => false) 2 2 rows3 "t" 10 none [] [] 1).shows =
      (queryLoop (fun _ => false) 2 2 rows3 "t" 10 none [] [] 1).queryTotals.length := by
  refine ⟨?_, ?_⟩
  · exact (C9_schema_reconciler ["T"] "t" (fun _ => false) 2 2 rows3 "t" 10 none
      ([] : List (String × Option Nat)) [] 1).2.1 (by decide)
  · exact (C9_schema_reconciler ["T"] "t" (fun _ => false) 2 2 rows3 "t" 10 none
      ([] : List (String × Option Nat)) [] 1).2.2.2 (by decide)

end Connector

namespace Connector

variable {K : Type} [LinearOrder K]

/-- Checkpoint count distributes over event-list concatenation. -/
theorem countCheckpoints_append (l1 l2 : List (Ev K)) :
    countCheckpoints (l1 ++ l2) = countCheckpoints l1 + countCheckpoints l2 := by
  simp [countCheckpoints, List.filter_append]

/-- Prepending an upsert event leaves the checkpoint count unchanged. -/
theorem countCheckpoints_cons_upsert (t : String) (r : Row K) (l : List (Ev K)) :
    countCheckpoints (Ev.upsert t r :: l) = countCheckpoints l := by
  simp [countCheckpoints, List.filter]

/-- A list of upsert events contains no checkpoint. -/
theorem countCheckpoints_upserts (t : String) (rs : List (Row K)) :
    countCheckpoints (rs.map (fun x => Ev.upsert t x)) = 0 := by
  induction rs with
  | nil => rfl
  | cons r rest ih => simpa [countCheckpoints_cons_upsert] using ih

/-- The record loop yields only upsert events, never a checkpoint. -/
theorem recordLoop_no_checkpoint (cancel : Nat → Bool) (tname : String) (psize : Nat) :
    ∀ (chs : List (List (Row K))) (total : Nat) (mc : Option K) (poll : Nat),
      countCheckpoints (recordLoop cancel tname psize chs total mc poll).events = 0 := by
  intro chs
  induction chs with
  | nil =>
    intro total mc poll
    by_cases hc : cancel poll
    · simp [recordLoop, hc, countCheckpoints]
    · simp [recordLoop, hc, countCheckpoints]
  | cons c rest ih =>
    intro total mc poll
    cases c with
    | nil =>
      by_cases hc : cancel poll
      · simp [recordLoop, hc, countCheckpoints]
      · simp [recordLoop, hc, countCheckpoints]
    | cons r rs =>
      by_cases hc : cancel poll
      · simp [recordLoop, hc, countCheckpoints]
      · by_cases h : rs.length + 1 < psize
        · simp [recordLoop, hc, h, countCheckpoints_cons_upsert, countCheckpoints_upserts]
        · simp [recordLoop, hc, h, countCheckpoints_append,
            countCheckpoints_cons_upsert, countCheckpoints_upserts, ih]

/-- The query loop yields only upsert events, never a checkpoint: the
checkpoint of connector.py line 167 sits outside the query loop. -/
theorem queryLoop_no_checkpoint (cancel : Nat → Bool) (qsize psize : Nat)
    (tbl : List (Row K)) (tname : String) :
    ∀ (fuel : Nat) (cursor : Option K) (tcs : List (String × Option K))
      (existing : List String) (poll : Nat),
      countCheckpoints
        (queryLoop cancel qsize psize tbl tname fuel cursor tcs existing poll).events = 0 := by
  intro fuel
  induction fuel with
  | zero => intro cursor tcs existing poll; rfl
  | succ n ih =>
    intro cursor tcs existing poll
    by_cases hc : cancel poll
    · simp [queryLoop, hc, countCheckpoints]
    · by_cases hbc : (recordLoop cancel tname psize
          (chunks psize (runQuery tbl cursor qsize)) 0 cursor (poll + 1)).canc
      · simp [queryLoop, hc, hbc, recordLoop_no_checkpoint]
      · by_cases hbt : (recordLoop cancel tname psize
            (chunks psize (runQuery tbl cursor qsize)) 0 cursor (poll + 1)).total % qsize = 0
        · simp [queryLoop, hc, hbc, hbt, countCheckpoints_append,
            recordLoop_no_checkpoint, ih]
        · simp [queryLoop, hc, hbc, hbt, recordLoop_no_checkpoint]

/-- The four-row source table of the C7 cancellation scenarios. -/
def c7rows : List (Row Nat) := [⟨0, 0⟩, ⟨1, 1⟩, ⟨2, 2⟩, ⟨3, 3⟩]

/-- C7 (confirmed): the cancellation predicate is polled at the three
granularities of connector.py lines 102, 115 and 138, and once a poll
returns true the engine emits nothing further and never checkpoints the
in-flight table.  Conjuncts: (1) a flag already true at the table-level
poll stops the run before any event; (2) any cancelled single-table run
contains no CheckpointEvent at all; (3) in a two-table run with the flag
turning true exactly at the second sub-batch poll (poll 3), the run
stops after the first sub-batch's two upserts and its one bulk write —
within one sub-batch — with no checkpoint for the in-flight table and
nothing from the second table; (4) with the flag turning true exactly
at the query-iteration poll (poll 1), the run stops with no events. -/
theorem C7_cancellation :
    (∀ (cfg : Config) (tname : String) (rest : List String)
      (src : String → List (Row K)) (st : List (String × K)) (dest0 : List String)
      (fuel : Nat) (cancel : Nat → Bool), cancel 0 = true →
      (update cfg (tname :: rest) src st cancel dest0 fuel).events = [] ∧
      (update cfg (tname :: rest) src st cancel dest0 fuel).exit = RunExit.cancelled) ∧
    (∀ (cfg : Config) (tname : String) (src : String → List (Row K))
      (st : List (String × K)) (dest0 : List String) (fuel : Nat) (cancel : Nat → Bool),
      (update cfg [tname] src st cancel dest0 fuel).exit = RunExit.cancelled →
      countCheckpoints (update cfg [tname] src st cancel dest0 fuel).events = 0) ∧
    ((update ⟨2, 4, none⟩ ["a", "b"] (fun _ => c7rows) [] (fun n => n == 3) [] 10).exit =
        RunExit.cancelled ∧
      (update ⟨2, 4, none⟩ ["a", "b"] (fun _ => c7rows) [] (fun n => n == 3) [] 10).events =
        [Ev.upsert "a" ⟨0, 0⟩, Ev.upsert "a" ⟨1, 1⟩] ∧
      (update ⟨2, 4, none⟩ ["a", "b"] (fun _ => c7rows) [] (fun n => n == 3) [] 10).writes =
        [("a", [⟨0, 0⟩, ⟨1, 1⟩])] ∧
      (update ⟨2, 4, none⟩ ["a", "b"] (fun _ => c7rows) [] (fun n => n == 3) [] 10).poll = 4) ∧
    ((update ⟨2, 4, none⟩ ["a", "b"] (fun _ => c7rows) [] (fun n => n == 1) [] 10).events = [] ∧
      (update ⟨2, 4, none⟩ ["a", "b"] (fun _ => c7rows) [] (fun n => n == 1) [] 10).exit =
        RunExit.cancelled ∧
      (update ⟨2, 4, none⟩ ["a", "b"] (fun _ => c7rows) [] (fun n => n == 1) [] 10).poll = 2) := by
  refine ⟨?_, ?_, ⟨by decide, by decide, by decide, by decide⟩, by decide, by decide, by decide⟩
  · intro cfg tname rest src st dest0 fuel cancel h
    constructor
    · simp [update, updateGo, h]
    · simp [update, updateGo, h]
  · intro cfg tname src st dest0 fuel cancel h
    by_cases hc : cancel 0
    · simp [update, updateGo, hc, countCheckpoints]
    · by_cases hskip : skipTable cfg.only_tables tname
      · exfalso
        simp [update, updateGo, hc, hskip] at h
      · rcases hexit : (queryLoop cancel cfg.batch_query_size cfg.batch_process_size
            (src tname) tname fuel (dictGet st (tname ++ "_cursor")) [] dest0 1).exit with _ | _ | _
        · exfalso
          simp [update, updateGo, hc, hskip, hexit] at h
        · simp [update, updateGo, hc, hskip, hexit, queryLoop_no_checkpoint]
        · exfalso
          simp [update, updateGo, hc, hskip, hexit] at h

/-- C7 (witness): the two universally quantified conjuncts applied at
concrete inputs — a flag already true at poll 0 yields no events, and
the cancelled two-sub-batch scenario restricted to its single table
contains no checkpoint. -/
theorem C7_cancellation_witness :
    (update ⟨2, 4, none⟩ ["w"] (fun _ => c7rows) [] (fun _ => true) [] 5).events =
      ([] : List (Ev Nat)) ∧
    countCheckpoints
      (update ⟨2, 4, none⟩ ["a"] (fun _ => c7rows) [] (fun n => n == 3) [] 10).events = 0 := by
  refine ⟨?_, ?_⟩
  · exact ((C7_cancellation (K := Nat)).1 ⟨2, 4, none⟩ "w" [] (fun _ => c7rows) [] [] 5
      (fun _ => true) rfl).1
  · exact (C7_cancellation (K := Nat)).2.1 ⟨2, 4, none⟩ "a" (fun _ => c7rows) [] [] 10
      (fun n => n == 3) (by decide)

end Connector

namespace Connector

variable {K : Type} [LinearOrder K]

/-- Every chunk produced by `chunksGo` has at most `p` elements. -/
theorem chunksGo_length_le {α : Type} (p : Nat) :
    ∀ (n : Nat) (l : List α) (c : List α), c ∈ chunksGo p n l → c.length ≤ p := by
  intro n
  induction n with
  | zero => intro l c h; simp [chunksGo] at h
  | succ m ih =>
    intro l c h
    cases l with
    | nil => simp [chunksGo] at h
    | cons x xs =>
      by_cases hp : p = 0
      · simp [chunksGo, hp] at h
      · rw [chunksGo, if_neg hp] at h
        rcases List.mem_cons.mp h with h1 | h2
        · subst h1
          simp [List.length_take]
          omega
        · exact ih _ _ h2

/-- No chunk produced by `chunksGo` is empty. -/
theorem chunksGo_ne_nil {α : Type} (p : Nat) :
    ∀ (n : Nat) (l : List α) (c : List α), c ∈ chunksGo p n l → c ≠ [] := by
  intro n
  induction n with
  | zero => intro l c h; simp [chunksGo] at h
  | succ m ih =>
    intro l c h
    cases l with
    | nil => simp [chunksGo] at h
    | cons x xs =>
      by_cases hp : p = 0
      · simp [chunksGo, hp] at h
      · rw [chunksGo, if_neg hp] at h
        rcases List.mem_cons.mp h with h1 | h2
        · subst h1; exact List.cons_ne_nil _ _
        · exact ih _ _ h2

/-- Every sub-batch the record loop writes is one of its fetched chunks. -/
theorem recordLoop_writes_mem (cancel : Nat → Bool) (tname : String) (psize : Nat) :
    ∀ (chs : List (List (Row K))) (total : Nat) (mc : Option K) (poll : Nat)
      (w : String × List (Row K)),
      w ∈ (recordLoop cancel tname psize chs total mc poll).writes → w.2 ∈ chs := by
  intro chs
  induction chs with
  | nil =>
    intro total mc poll w h
    by_cases hc : cancel poll <;> simp [recordLoop, hc] at h
  | cons c rest ih =>
    intro total mc poll w h
    cases c with
    | nil =>
      by_cases hc : cancel poll <;> simp [recordLoop, hc] at h
    | cons r rs =>
      by_cases hc : cancel poll
      · simp [recordLoop, hc] at h
      · by_cases hlen : rs.length + 1 < psize
        · simp [recordLoop, hc, hlen] at h
          simp [h]
        · simp [recordLoop, hc, hlen] at h
          rcases h with h1 | h2
          · simp [h1]
          · exact List.mem_cons_of_mem _ (ih _ _ _ _ h2)

/-- Replication keys of a concatenated write trace. -/
theorem writtenKeys_append (ws1 ws2 : List (String × List (Row K))) :
    writtenKeys (ws1 ++ ws2) = writtenKeys ws1 ++ writtenKeys ws2 := by
  simp [writtenKeys]

/-- Replication keys of a write trace with one leading write. -/
theorem writtenKeys_cons (w : String × List (Row K)) (ws : List (String × List (Row K))) :
    writtenKeys (w :: ws) = w.2.map Row.key ++ writtenKeys ws := by
  simp [writtenKeys]

/-- Key of the last row of a single write is among the written keys. -/
theorem key_mem_writtenKeys_single (tname : String) (l : List (Row K)) (hl : l ≠ []) :
    (l.getLast hl).key ∈ writtenKeys [(tname, l)] := by
  have h1 : (l.getLast hl).key ∈ l.map Row.key :=
    List.mem_map_of_mem _ (List.getLast_mem hl)
  simpa [writtenKeys] using h1

/-- The record loop's running maximum cursor is either the incoming one or
the key of a row it wrote. -/
theorem recordLoop_maxCur (cancel : Nat → Bool) (tname : String) (psize : Nat) :
    ∀ (chs : List (List (Row K))) (total : Nat) (mc : Option K) (poll : Nat),
      (recordLoop cancel tname psize chs total mc poll).maxCur = mc ∨
      ∃ k, k ∈ writtenKeys (recordLoop cancel tname psize chs total mc poll).writes ∧
        (recordLoop cancel tname psize chs total mc poll).maxCur = some k := by
  intro chs
  induction chs with
  | nil =>
    intro total mc poll
    by_cases hc : cancel poll <;> simp [recordLoop, hc]
  | cons c rest ih =>
    intro total mc poll
    cases c with
    | nil =>
      by_cases hc : cancel poll <;> simp [recordLoop, hc]
    | cons r rs =>
      by_cases hc : cancel poll
      · simp [recordLoop, hc]
      · by_cases hlen : rs.length + 1 < psize
        · have hw : (recordLoop cancel tname psize ((r :: rs) :: rest) total mc poll).writes
              = [(tname, r :: rs)] := by simp [recordLoop, hc, hlen]
          have hm : (recordLoop cancel tname psize ((r :: rs) :: rest) total mc poll).maxCur
              = some ((r :: rs).getLast (List.cons_ne_nil r rs)).key := by
            simp [recordLoop, hc, hlen]
          right
          refine ⟨((r :: rs).getLast (List.cons_ne_nil r rs)).key, ?_, hm⟩
          rw [hw]
          exact key_mem_writtenKeys_single tname _ (List.cons_ne_nil r rs)
        · have hw : (recordLoop cancel tname psize ((r :: rs) :: rest) total mc poll).writes
              = (tname, r :: rs) :: (recordLoop cancel tname psize rest
                  (total + (rs.length + 1))
                  (some ((r :: rs).getLast (List.cons_ne_nil r rs)).key) (poll + 1)).writes := by
            simp [recordLoop, hc, hlen]
          have hm : (recordLoop cancel tname psize ((r :: rs) :: rest) total mc poll).maxCur
              = (recordLoop cancel tname psize rest (total + (rs.length + 1))
                  (some ((r :: rs).getLast (List.cons_ne_nil r rs)).key) (poll + 1)).maxCur := by
            simp [recordLoop, hc, hlen]
          rcases ih (total + (rs.length + 1))
              (some ((r :: rs).getLast (List.cons_ne_nil r rs)).key) (poll + 1) with h1 | ⟨k, hk1, hk2⟩
          · right
            refine ⟨((r :: rs).getLast (List.cons_ne_nil r rs)).key, ?_, by rw [hm, h1]⟩
            rw [hw, writtenKeys_cons]
            exact List.mem_append_left _
              (List.mem_map_of_mem _ (List.getLast_mem (List.cons_ne_nil r rs)))
          · right
            refine ⟨k, ?_, by rw [hm, hk2]⟩
            rw [hw, writtenKeys_cons]
            exact List.mem_append_right _ hk1

/-- When the record loop actually processed a first, non-empty chunk and
was not cancelled at its first poll, its final maximum cursor is the key
of a row it wrote. -/
theorem recordLoop_maxCur_first (cancel : Nat → Bool) (tname : String) (psize : Nat)
    (r : Row K) (rs : List (Row K)) (rest : List (List (Row K)))
    (total : Nat) (mc : Option K) (poll : Nat)
    (hcanc : cancel poll = false) :
    ∃ k, k ∈ writtenKeys (recordLoop cancel tname psize ((r :: rs) :: rest) total mc poll).writes ∧
      (recordLoop cancel tname psize ((r :: rs) :: rest) total mc poll).maxCur = some k := by
  have hc : ¬cancel poll = true := by simp [hcanc]
  by_cases hlen : rs.length + 1 < psize
  · have hw : (recordLoop cancel tname psize ((r :: rs) :: rest) total mc poll).writes
        = [(tname, r :: rs)] := by simp [recordLoop, hc, hlen]
    have hm : (recordLoop cancel tname psize ((r :: rs) :: rest) total mc poll).maxCur
        = some ((r :: rs).getLast (List.cons_ne_nil r rs)).key := by
      simp [recordLoop, hc, hlen]
    refine ⟨((r :: rs).getLast (List.cons_ne_nil r rs)).key, ?_, hm⟩
    rw [hw]
    exact key_mem_writtenKeys_single tname _ (List.cons_ne_nil r rs)
  · have hw : (recordLoop cancel tname psize ((r :: rs) :: rest) total mc poll).writes
        = (tname, r :: rs) :: (recordLoop cancel tname psize rest
            (total + (rs.length + 1))
            (some ((r :: rs).getLast (List.cons_ne_nil r rs)).key) (poll + 1)).writes := by
      simp [recordLoop, hc, hlen]
    have hm : (recordLoop cancel tname psize ((r :: rs) :: rest) total mc poll).maxCur
        = (recordLoop cancel tname psize rest (total + (rs.length + 1))
            (some ((r :: rs).getLast (List.cons_ne_nil r rs)).key) (poll + 1)).maxCur := by
      simp [recordLoop, hc, hlen]
    rcases recordLoop_maxCur cancel tname psize rest (total + (rs.length + 1))
        (some ((r :: rs).getLast (List.cons_ne_nil r rs)).key) (poll + 1) with h1 | ⟨k, hk1, hk2⟩
    · refine ⟨((r :: rs).getLast (List.cons_ne_nil r rs)).key, ?_, by rw [hm, h1]⟩
      rw [hw, writtenKeys_cons]
      exact List.mem_append_left _
        (List.mem_map_of_mem _ (List.getLast_mem (List.cons_ne_nil r rs)))
    · refine ⟨k, ?_, by rw [hm, hk2]⟩
      rw [hw, writtenKeys_cons]
      exact List.mem_append_right _ hk1

/-- Looking a key up after a Python-dict assignment: the assigned key
reads the new value, any other key is unaffected. -/
theorem dictGet_dictInsert {α : Type} (m : List (String × α)) (k : String) (v : α)
    (key : String) :
    dictGet (dictInsert m k v) key = if k = key then some v else dictGet m key := by
  induction m with
  | nil => simp [dictInsert, dictGet]
  | cons p rest ih =>
    obtain ⟨k2, v2⟩ := p
    by_cases h : k2 = k
    · subst h
      by_cases hkey : k2 = key <;> simp [dictInsert, dictGet, hkey]
    · by_cases h2 : k2 = key
      · subst h2
        have : ¬k = k2 := fun hh => h hh.symm
        simp [dictInsert, dictGet, h, this]
      · simp [dictInsert, dictGet, h, h2, ih]

end Connector

namespace Connector

variable {K : Type} [LinearOrder K]

/-- Every sub-batch written by a table's query loop has at most
`batch_process_size` rows: `fetchmany(batch_process_size)` can never
return more. -/
theorem queryLoop_writes_le (cancel : Nat → Bool) (qsize psize : Nat)
    (tbl : List (Row K)) (tname : String) :
    ∀ (fuel : Nat) (cursor : Option K) (tcs : List (String × Option K))
      (existing : List String) (poll : Nat) (w : String × List (Row K)),
      w ∈ (queryLoop cancel qsize psize tbl tname fuel cursor tcs existing poll).writes →
      w.2.length ≤ psize := by
  intro fuel
  induction fuel with
  | zero => intro cursor tcs existing poll w h; simp [queryLoop] at h
  | succ n ih =>
    intro cursor tcs existing poll w h
    by_cases hc : cancel poll
    · simp [queryLoop, hc] at h
    · have hb : ∀ w2 : String × List (Row K),
          w2 ∈ (recordLoop cancel tname psize
            (chunks psize (runQuery tbl cursor qsize)) 0 cursor (poll + 1)).writes →
          w2.2.length ≤ psize := by
        intro w2 hw2
        have hmem := recordLoop_writes_mem cancel tname psize
          (chunks psize (runQuery tbl cursor qsize)) 0 cursor (poll + 1) w2 hw2
        exact chunksGo_length_le psize _ _ _ hmem
      by_cases hbc : (recordLoop cancel tname psize
          (chunks psize (runQuery tbl cursor qsize)) 0 cursor (poll + 1)).canc
      · have hw : (queryLoop cancel qsize psize tbl tname (n + 1) cursor tcs existing poll).writes
            = (recordLoop cancel tname psize
                (chunks psize (runQuery tbl cursor qsize)) 0 cursor (poll + 1)).writes := by
          simp [queryLoop, hc, hbc]
        exact hb w (hw ▸ h)
      · by_cases hbt : (recordLoop cancel tname psize
            (chunks psize (runQuery tbl cursor qsize)) 0 cursor (poll + 1)).total % qsize = 0
        · have hw : (queryLoop cancel qsize psize tbl tname (n + 1) cursor tcs existing poll).writes
              = (recordLoop cancel tname psize
                  (chunks psize (runQuery tbl cursor qsize)) 0 cursor (poll + 1)).writes ++
                (queryLoop cancel qsize psize tbl tname n
                  (recordLoop cancel tname psize
                    (chunks psize (runQuery tbl cursor qsize)) 0 cursor (poll + 1)).maxCur
                  (dictInsert tcs (tname ++ "_cursor")
                    (recordLoop cancel tname psize
                      (chunks psize (runQuery tbl cursor qsize)) 0 cursor (poll + 1)).maxCur)
                  (create_table_if_not_exists existing tname).1
                  (recordLoop cancel tname psize
                    (chunks psize (runQuery tbl cursor qsize)) 0 cursor (poll + 1)).poll).writes := by
            simp [queryLoop, hc, hbc, hbt]
          rw [hw] at h
          rcases List.mem_append.mp h with h1 | h2
          · exact hb w h1
          · exact ih _ _ _ _ w h2
        · have hw : (queryLoop cancel qsize psize tbl tname (n + 1) cursor tcs existing poll).writes
              = (recordLoop cancel tname psize
                  (chunks psize (runQuery tbl cursor qsize)) 0 cursor (poll + 1)).writes := by
            simp [queryLoop, hc, hbc, hbt]
          exact hb w (hw ▸ h)

/-- A query loop whose query fetches no sub-batch at all can never
complete (it spins or is cancelled), for any cancellation flag. -/
theorem queryLoop_not_completed_of_nil (cancel : Nat → Bool) (qsize psize : Nat)
    (tbl : List (Row K)) (tname : String) (cursor : Option K)
    (hnil : chunks psize (runQuery tbl cursor qsize) = []) :
    ∀ (fuel : Nat) (tcs : List (String × Option K)) (existing : List String) (poll : Nat),
      (queryLoop cancel qsize psize tbl tname fuel cursor tcs existing poll).exit ≠
        RunExit.completed := by
  intro fuel
  induction fuel with
  | zero => intro tcs existing poll; simp [queryLoop]
  | succ n ih =>
    intro tcs existing poll
    by_cases hc : cancel poll
    · simp [queryLoop, hc]
    · by_cases hc2 : cancel (poll + 1)
      · have hb : (recordLoop cancel tname psize
            (chunks psize (runQuery tbl cursor qsize)) 0 cursor (poll + 1)).canc = true := by
          rw [hnil]; simp [recordLoop, hc2]
        simp [queryLoop, hc, hb]
      · have hbc : (recordLoop cancel tname psize
            (chunks psize (runQuery tbl cursor qsize)) 0 cursor (poll + 1)).canc = false := by
          rw [hnil]; simp [recordLoop, hc2]
        have hbt : (recordLoop cancel tname psize
            (chunks psize (runQuery tbl cursor qsize)) 0 cursor (poll + 1)).total = 0 := by
          rw [hnil]; simp [recordLoop, hc2]
        have hbm : (recordLoop cancel tname psize
            (chunks psize (runQuery tbl cursor qsize)) 0 cursor (poll + 1)).maxCur = cursor := by
          rw [hnil]; simp [recordLoop, hc2]
        simp [queryLoop, hc, hbc, hbt, hbm, ih]

/-- In a completed query loop, every cursor present in the final
`table_cursors` was either already there at entry or is the
replication-key value of a row written to the destination in this run. -/
theorem queryLoop_tcs_written (cancel : Nat → Bool) (qsize psize : Nat)
    (tbl : List (Row K)) (tname : String) :
    ∀ (fuel : Nat) (cursor : Option K) (tcs : List (String × Option K))
      (existing : List String) (poll : Nat),
      (queryLoop cancel qsize psize tbl tname fuel cursor tcs existing poll).exit =
        RunExit.completed →
      ∀ (key : String) (c : K),
        dictGet (queryLoop cancel qsize psize tbl tname fuel cursor tcs existing poll).tcs key =
          some (some c) →
        dictGet tcs key = some (some c) ∨
          c ∈ writtenKeys (queryLoop cancel qsize psize tbl tname fuel cursor tcs existing poll).writes := by
  intro fuel
  induction fuel with
  | zero => intro cursor tcs existing poll h; simp [queryLoop] at h
  | succ n ih =>
    intro cursor tcs existing poll h key c hkey
    by_cases hc : cancel poll
    · simp [queryLoop, hc] at h
    · by_cases hbc : (recordLoop cancel tname psize
          (chunks psize (runQuery tbl cursor qsize)) 0 cursor (poll + 1)).canc
      · simp [queryLoop, hc, hbc] at h
      · by_cases hbt : (recordLoop cancel tname psize
            (chunks psize (runQuery tbl cursor qsize)) 0 cursor (poll + 1)).total % qsize = 0
        · by_cases hnil : chunks psize (runQuery tbl cursor qsize) = []
          · exact absurd h
              (queryLoop_not_completed_of_nil cancel qsize psize tbl tname cursor hnil
                (n + 1) tcs existing poll)
          · obtain ⟨c0, rest0, hch⟩ := List.exists_cons_of_ne_nil hnil
            have hc0 : c0 ≠ [] := by
              apply chunksGo_ne_nil psize (runQuery tbl cursor qsize).length
                (runQuery tbl cursor qsize) c0
              show c0 ∈ chunks psize (runQuery tbl cursor qsize)
              rw [hch]
              exact List.mem_cons_self c0 rest0
            obtain ⟨r, rs, hc0eq⟩ : ∃ r rs, c0 = r :: rs := by
              cases c0 with
              | nil => exact absurd rfl hc0
              | cons a b => exact ⟨a, b, rfl⟩
            subst hc0eq
            have hc2 : cancel (poll + 1) = false := by
              cases hcc : cancel (poll + 1) with
              | false => rfl
              | true =>
                exfalso
                apply hbc
                rw [hch]
                simp [recordLoop, hcc]
            have hfirst : ∃ k, k ∈ writtenKeys (recordLoop cancel tname psize
                (chunks psize (runQuery tbl cursor qsize)) 0 cursor (poll + 1)).writes ∧
                (recordLoop cancel tname psize
                  (chunks psize (runQuery tbl cursor qsize)) 0 cursor (poll + 1)).maxCur =
                  some k := by
              rw [hch]
              exact recordLoop_maxCur_first cancel tname psize r rs rest0 0 cursor (poll + 1) hc2
            obtain ⟨k0, hk0mem, hk0max⟩ := hfirst
            have htcs : (queryLoop cancel qsize psize tbl tname (n + 1) cursor tcs existing poll).tcs
                = (queryLoop cancel qsize psize tbl tname n
                    (recordLoop cancel tname psize
                      (chunks psize (runQuery tbl cursor qsize)) 0 cursor (poll + 1)).maxCur
                    (dictInsert tcs (tname ++ "_cursor")
                      (recordLoop cancel tname psize
                        (chunks psize (runQuery tbl cursor qsize)) 0 cursor (poll + 1)).maxCur)
                    (create_table_if_not_exists existing tname).1
                    (recordLoop cancel tname psize
                      (chunks psize (runQuery tbl cursor qsize)) 0 cursor (poll + 1)).poll).tcs := by
              simp [queryLoop, hc, hbc, hbt]
            have hwrites : (queryLoop cancel qsize psize tbl tname (n + 1) cursor tcs existing poll).writes
                = (recordLoop cancel tname psize
                    (chunks psize (runQuery tbl cursor qsize)) 0 cursor (poll + 1)).writes ++
                  (queryLoop cancel qsize psize tbl tname n
                    (recordLoop cancel tname psize
                      (chunks psize (runQuery tbl cursor qsize)) 0 cursor (poll + 1)).maxCur
                    (dictInsert tcs (tname ++ "_cursor")
                      (recordLoop cancel tname psize
                        (chunks psize (runQuery tbl cursor qsize)) 0 cursor (poll + 1)).maxCur)
                    (create_table_if_not_exists existing tname).1
                    (recordLoop cancel tname psize
                      (chunks psize (runQuery tbl cursor qsize)) 0 cursor (poll + 1)).poll).writes := by
              simp [queryLoop, hc, hbc, hbt]
            have hexit : (queryLoop cancel qsize psize tbl tname n
                (recordLoop cancel tname psize
                  (chunks psize (runQuery tbl cursor qsize)) 0 cursor (poll + 1)).maxCur
                (dictInsert tcs (tname ++ "_cursor")
                  (recordLoop cancel tname psize
                    (chunks psize (runQuery tbl cursor qsize)) 0 cursor (poll + 1)).maxCur)
                (create_table_if_not_exists existing tname).1
                (recordLoop cancel tname psize
                  (chunks psize (runQuery tbl cursor qsize)) 0 cursor (poll + 1)).poll).exit =
                RunExit.completed := by
              simpa [queryLoop, hc, hbc, hbt] using h
            rcases ih _ _ _ _ hexit key c (htcs ▸ hkey) with h1 | h2
            · rw [dictGet_dictInsert] at h1
              by_cases hkeq : tname ++ "_cursor" = key
              · rw [if_pos hkeq] at h1
                have hmax : (recordLoop cancel tname psize
                    (chunks psize (runQuery tbl cursor qsize)) 0 cursor (poll + 1)).maxCur =
                    some c := by
                  injection h1
                rw [hk0max] at hmax
                have hck : k0 = c := by injection hmax
                right
                rw [hwrites, writtenKeys_append]
                exact List.mem_append_left _ (hck ▸ hk0mem)
              · rw [if_neg hkeq] at h1
                exact Or.inl h1
            · right
              rw [hwrites, writtenKeys_append]
              exact List.mem_append_right _ h2
        · have htcs : (queryLoop cancel qsize psize tbl tname (n + 1) cursor tcs existing poll).tcs
              = tcs := by
            simp [queryLoop, hc, hbc, hbt]
          exact Or.inl (htcs ▸ hkey)

end Connector

namespace Connector

variable {K : Type} [LinearOrder K]

/-- Every destination sub-batch written by the table loop has at most
`batch_process_size` rows. -/
theorem updateGo_writes_le (cancel : Nat → Bool) (qsize psize : Nat)
    (ot : Option (List String)) (src : String → List (Row K))
    (state : List (String × K)) (fuel : Nat) :
    ∀ (tls : List String) (tcs : List (String × Option K)) (existing : List String)
      (poll : Nat) (w : String × List (Row K)),
      w ∈ (updateGo cancel qsize psize ot src state fuel tls tcs existing poll).writes →
      w.2.length ≤ psize := by
  intro tls
  induction tls with
  | nil => intro tcs existing poll w h; simp [updateGo] at h
  | cons tname rest ih =>
    intro tcs existing poll w h
    by_cases hc : cancel poll
    · simp [updateGo, hc] at h
    · by_cases hskip : skipTable ot tname
      · exact ih _ _ _ w (by simpa [updateGo, hc, hskip] using h)
      · rcases hexit : (queryLoop cancel qsize psize (src tname) tname fuel
            (dictGet state (tname ++ "_cursor")) tcs existing (poll + 1)).exit with _ | _ | _
        · have hw : (updateGo cancel qsize psize ot src state fuel (tname :: rest)
                tcs existing poll).writes
              = (queryLoop cancel qsize psize (src tname) tname fuel
                  (dictGet state (tname ++ "_cursor")) tcs existing (poll + 1)).writes ++
                (updateGo cancel qsize psize ot src state fuel rest
                  (queryLoop cancel qsize psize (src tname) tname fuel
                    (dictGet state (tname ++ "_cursor")) tcs existing (poll + 1)).tcs
                  (queryLoop cancel qsize psize (src tname) tname fuel
                    (dictGet state (tname ++ "_cursor")) tcs existing (poll + 1)).existing
                  (queryLoop cancel qsize psize (src tname) tname fuel
                    (dictGet state (tname ++ "_cursor")) tcs existing (poll + 1)).poll).writes := by
            simp [updateGo, hc, hskip, hexit]
          rw [hw] at h
          rcases List.mem_append.mp h with h1 | h2
          · exact queryLoop_writes_le cancel qsize psize (src tname) tname fuel _ _ _ _ w h1
          · exact ih _ _ _ w h2
        · have hw : (updateGo cancel qsize psize ot src state fuel (tname :: rest)
                tcs existing poll).writes
              = (queryLoop cancel qsize psize (src tname) tname fuel
                  (dictGet state (tname ++ "_cursor")) tcs existing (poll + 1)).writes := by
            simp [updateGo, hc, hskip, hexit]
          rw [hw] at h
          exact queryLoop_writes_le cancel qsize psize (src tname) tname fuel _ _ _ _ w h
        · have hw : (updateGo cancel qsize psize ot src state fuel (tname :: rest)
                tcs existing poll).writes
              = (queryLoop cancel qsize psize (src tname) tname fuel
                  (dictGet state (tname ++ "_cursor")) tcs existing (poll + 1)).writes := by
            simp [updateGo, hc, hskip, hexit]
          rw [hw] at h
          exact queryLoop_writes_le cancel qsize psize (src tname) tname fuel _ _ _ _ w h

/-- In a completed single-table pass (no `only_tables` restriction), the
run's last event is the checkpoint carrying the final `table_cursors`,
and the cursor it reports for the table — when one is present — is the
replication-key value of a row actually written in this pass. -/
theorem update_single_completed (qsize psize : Nat) (tname : String)
    (src : String → List (Row K)) (st : List (String × K)) (cancel : Nat → Bool)
    (dest0 : List String) (fuel : Nat)
    (h : (update ⟨psize, qsize, none⟩ [tname] src st cancel dest0 fuel).exit =
      RunExit.completed) :
    (update ⟨psize, qsize, none⟩ [tname] src st cancel dest0 fuel).events.getLast? =
      some (Ev.checkpoint (update ⟨psize, qsize, none⟩ [tname] src st cancel dest0 fuel).tcs) ∧
    ∀ c : K,
      dictGet (update ⟨psize, qsize, none⟩ [tname] src st cancel dest0 fuel).tcs
          (tname ++ "_cursor") = some (some c) →
      c ∈ writtenKeys (update ⟨psize, qsize, none⟩ [tname] src st cancel dest0 fuel).writes := by
  by_cases hc : cancel 0
  · simp [update, updateGo, hc] at h
  · rcases hexit : (queryLoop cancel qsize psize (src tname) tname fuel
        (dictGet st (tname ++ "_cursor")) [] dest0 1).exit with _ | _ | _
    · have hev : (update ⟨psize, qsize, none⟩ [tname] src st cancel dest0 fuel).events
          = (queryLoop cancel qsize psize (src tname) tname fuel
              (dictGet st (tname ++ "_cursor")) [] dest0 1).events ++
            [Ev.checkpoint (queryLoop cancel qsize psize (src tname) tname fuel
              (dictGet st (tname ++ "_cursor")) [] dest0 1).tcs] := by
        simp [update, updateGo, hc, skipTable, hexit]
      have htcs : (update ⟨psize, qsize, none⟩ [tname] src st cancel dest0 fuel).tcs
          = (queryLoop cancel qsize psize (src tname) tname fuel
              (dictGet st (tname ++ "_cursor")) [] dest0 1).tcs := by
        simp [update, updateGo, hc, skipTable, hexit]
      have hwr : (update ⟨psize, qsize, none⟩ [tname] src st cancel dest0 fuel).writes
          = (queryLoop cancel qsize psize (src tname) tname fuel
              (dictGet st (tname ++ "_cursor")) [] dest0 1).writes := by
        simp [update, updateGo, hc, skipTable, hexit]
      constructor
      · rw [hev, htcs]
        exact List.getLast?_concat _
      · intro c hcc
        rw [htcs] at hcc
        rcases queryLoop_tcs_written cancel qsize psize (src tname) tname fuel
            (dictGet st (tname ++ "_cursor")) [] dest0 1 hexit (tname ++ "_cursor") c hcc
          with h1 | h2
        · simp [dictGet] at h1
        · rw [hwr]
          exact h2
    · simp [update, updateGo, hc, skipTable, hexit] at h
    · simp [update, updateGo, hc, skipTable, hexit] at h

/-- The source table of the C1 counterexample run: four rows with keys
0,1,2,3. -/
def c1rows : List (Row Nat) := [⟨0, 0⟩, ⟨1, 1⟩, ⟨2, 2⟩, ⟨3, 3⟩]

/-- The C1 counterexample run: one table of four rows,
`batch_query_size = batch_process_size = 3`. -/
def c1run : UpdateOut Nat :=
  update ⟨3, 3, none⟩ ["t"] (fun _ => c1rows) [] (fun _ => false) [] 10

/-- No checkpoint event ever occurs among a query loop's events (the
checkpoint of connector.py line 167 sits outside the query loop). -/
theorem queryLoop_checkpoint_not_mem (cancel : Nat → Bool) (qsize psize : Nat)
    (tbl : List (Row K)) (tname : String) (fuel : Nat) (cursor : Option K)
    (tcs : List (String × Option K)) (existing : List String) (poll : Nat)
    (cs : List (String × Option K)) :
    Ev.checkpoint cs ∉
      (queryLoop cancel qsize psize tbl tname fuel cursor tcs existing poll).events := by
  intro hmem
  have h0 : ((queryLoop cancel qsize psize tbl tname fuel cursor tcs existing poll).events.filter
      (fun e => match e with | .checkpoint _ => true | _ => false)).length = 0 :=
    queryLoop_no_checkpoint cancel qsize psize tbl tname fuel cursor tcs existing poll
  have hin : Ev.checkpoint cs ∈
      (queryLoop cancel qsize psize tbl tname fuel cursor tcs existing poll).events.filter
        (fun e => match e with | .checkpoint _ => true | _ => false) :=
    List.mem_filter.mpr ⟨hmem, rfl⟩
  rw [List.length_eq_zero.mp h0] at hin
  exact absurd hin (List.not_mem_nil _)

/-- In any run of the table loop — any table list, any `only_tables`
restriction, any cancellation flag, any exit — every cursor carried by
any emitted checkpoint event was either already in the incoming
`table_cursors` or is the replication-key value of a row written to the
destination by this run. -/
theorem updateGo_checkpoint_written (cancel : Nat → Bool) (qsize psize : Nat)
    (ot : Option (List String)) (src : String → List (Row K))
    (state : List (String × K)) (fuel : Nat) :
    ∀ (tls : List String) (tcs : List (String × Option K)) (existing : List String)
      (poll : Nat) (cs : List (String × Option K)),
      Ev.checkpoint cs ∈
        (updateGo cancel qsize psize ot src state fuel tls tcs existing poll).events →
      ∀ (key : String) (c : K), dictGet cs key = some (some c) →
        dictGet tcs key = some (some c) ∨
          c ∈ writtenKeys
            (updateGo cancel qsize psize ot src state fuel tls tcs existing poll).writes := by
  intro tls
  induction tls with
  | nil => intro tcs existing poll cs h; simp [updateGo] at h
  | cons tname rest ih =>
    intro tcs existing poll cs h key c hkey
    by_cases hc : cancel poll
    · simp [updateGo, hc] at h
    · by_cases hskip : skipTable ot tname
      · have hev : (updateGo cancel qsize psize ot src state fuel (tname :: rest)
              tcs existing poll).events
            = (updateGo cancel qsize psize ot src state fuel rest
                tcs existing (poll + 1)).events := by
          simp [updateGo, hc, hskip]
        have hwr : (updateGo cancel qsize psize ot src state fuel (tname :: rest)
              tcs existing poll).writes
            = (updateGo cancel qsize psize ot src state fuel rest
                tcs existing (poll + 1)).writes := by
          simp [updateGo, hc, hskip]
        rw [hev] at h
        rcases ih tcs existing (poll + 1) cs h key c hkey with h1 | h2
        · exact Or.inl h1
        · rw [hwr]
          exact Or.inr h2
      · rcases hexit : (queryLoop cancel qsize psize (src tname) tname fuel
            (dictGet state (tname ++ "_cursor")) tcs existing (poll + 1)).exit with _ | _ | _
        · have hev : (updateGo cancel qsize psize ot src state fuel (tname :: rest)
                tcs existing poll).events
              = (queryLoop cancel qsize psize (src tname) tname fuel
                  (dictGet state (tname ++ "_cursor")) tcs existing (poll + 1)).events ++
                Ev.checkpoint (queryLoop cancel qsize psize (src tname) tname fuel
                  (dictGet state (tname ++ "_cursor")) tcs existing (poll + 1)).tcs ::
                (updateGo cancel qsize psize ot src state fuel rest
                  (queryLoop cancel qsize psize (src tname) tname fuel
                    (dictGet state (tname ++ "_cursor")) tcs existing (poll + 1)).tcs
                  (queryLoop cancel qsize psize (src tname) tname fuel
                    (dictGet state (tname ++ "_cursor")) tcs existing (poll + 1)).existing
                  (queryLoop cancel qsize psize (src tname) tname fuel
                    (dictGet state (tname ++ "_cursor")) tcs existing (poll + 1)).poll).events := by
            simp [updateGo, hc, hskip, hexit]
          have hwr : (updateGo cancel qsize psize ot src state fuel (tname :: rest)
                tcs existing poll).writes
              = (queryLoop cancel qsize psize (src tname) tname fuel
                  (dictGet state (tname ++ "_cursor")) tcs existing (poll + 1)).writes ++
                (updateGo cancel qsize psize ot src state fuel rest
                  (queryLoop cancel qsize psize (src tname) tname fuel
                    (dictGet state (tname ++ "_cursor")) tcs existing (poll + 1)).tcs
                  (queryLoop cancel qsize psize (src tname) tname fuel
                    (dictGet state (tname ++ "_cursor")) tcs existing (poll + 1)).existing
                  (queryLoop cancel qsize psize (src tname) tname fuel
                    (dictGet state (tname ++ "_cursor")) tcs existing (poll + 1)).poll).writes := by
            simp [updateGo, hc, hskip, hexit]
          rw [hev] at h
          rcases List.mem_append.mp h with h1 | h2
          · exact absurd h1 (queryLoop_checkpoint_not_mem cancel qsize psize (src tname)
              tname fuel _ tcs existing (poll + 1) cs)
          · rcases List.mem_cons.mp h2 with h3 | h4
            · have hcs : cs = (queryLoop cancel qsize psize (src tname) tname fuel
                  (dictGet state (tname ++ "_cursor")) tcs existing (poll + 1)).tcs := by
                injection h3
              rcases queryLoop_tcs_written cancel qsize psize (src tname) tname fuel
                  (dictGet state (tname ++ "_cursor")) tcs existing (poll + 1) hexit key c
                  (hcs ▸ hkey) with g1 | g2
              · exact Or.inl g1
              · right
                rw [hwr, writtenKeys_append]
                exact List.mem_append_left _ g2
            · rcases ih _ _ _ cs h4 key c hkey with g1 | g2
              · rcases queryLoop_tcs_written cancel qsize psize (src tname) tname fuel
                    (dictGet state (tname ++ "_cursor")) tcs existing (poll + 1) hexit key c g1
                  with g3 | g4
                · exact Or.inl g3
                · right
                  rw [hwr, writtenKeys_append]
                  exact List.mem_append_left _ g4
              · right
                rw [hwr, writtenKeys_append]
                exact List.mem_append_right _ g2
        · have hev : (updateGo cancel qsize psize ot src state fuel (tname :: rest)
                tcs existing poll).events
              = (queryLoop cancel qsize psize (src tname) tname fuel
                  (dictGet state (tname ++ "_cursor")) tcs existing (poll + 1)).events := by
            simp [updateGo, hc, hskip, hexit]
          rw [hev] at h
          exact absurd h (queryLoop_checkpoint_not_mem cancel qsize psize (src tname)
            tname fuel _ tcs existing (poll + 1) cs)
        · have hev : (updateGo cancel qsize psize ot src state fuel (tname :: rest)
                tcs existing poll).events
              = (queryLoop cancel qsize psize (src tname) tname fuel
                  (dictGet state (tname ++ "_cursor")) tcs existing (poll + 1)).events := by
            simp [updateGo, hc, hskip, hexit]
          rw [hev] at h
          exact absurd h (queryLoop_checkpoint_not_mem cancel qsize psize (src tname)
            tname fuel _ tcs existing (poll + 1) cs)

/-- In any pass of the engine, every cursor carried by any emitted
checkpoint event — in particular the final cursor reported in each
table's checkpoint contribution — is the replication-key value of a row
actually written to the destination in that pass. -/
theorem update_checkpoint_written (cfg : Config) (tls : List String)
    (src : String → List (Row K)) (st : List (String × K)) (cancel : Nat → Bool)
    (dest0 : List String) (fuel : Nat) (cs : List (String × Option K))
    (h : Ev.checkpoint cs ∈ (update cfg tls src st cancel dest0 fuel).events)
    (key : String) (c : K) (hkey : dictGet cs key = some (some c)) :
    c ∈ writtenKeys (update cfg tls src st cancel dest0 fuel).writes := by
  rcases updateGo_checkpoint_written cancel cfg.batch_query_size cfg.batch_process_size
      cfg.only_tables src st fuel tls [] dest0 0 cs h key c hkey with h1 | h2
  · simp [dictGet] at h1
  · exact h2

/-- The two-table run exercising the multi-table cursor property: both
tables complete, and the second checkpoint carries both tables'
cursors. -/
def c1run2 : UpdateOut Nat :=
  update ⟨2, 2, none⟩ ["a", "b"] (fun _ => [⟨0, 0⟩, ⟨1, 1⟩, ⟨2, 2⟩]) [] (fun _ => false) [] 10

/-- C1 (counterexample): on a four-row table with query size 3 the claim's
equality fails — the completed run's checkpoint reports `t_cursor = 2`
(the last row of the first, full query page), while the last row of the
last sub-batch processed has replication key 3, which is also the
maximum key written. -/
theorem C1_counterexample :
    c1run.exit = RunExit.completed ∧
    c1run.events.getLast? = some (Ev.checkpoint [("t" ++ "_cursor", some 2)]) ∧
    c1run.writes.map (fun w => w.2.map Row.key) = [[0, 1, 2], [2, 3]] ∧
    (2 : Nat) ≠ 3 := by
  refine ⟨by decide, by decide, by decide, by decide⟩

/-- C1 (amended): every destination sub-batch has at most
`batch_process_size` rows.  For every table processed in a pass — any
table list, any `only_tables` restriction, any cancellation flag — the
final cursor reported in that table's checkpoint contribution, when one
is present, is the replication-key value of a row actually written to
the destination in that pass (the last row of the table's last *full*
query page); it can be strictly smaller than the replication-key value
of the last row of the last sub-batch processed for the table
(equivalently the maximum written), and the contribution can be absent
entirely when none of the table's query pages was full.  In a completed
single-table pass the run's last event is that checkpoint, carrying the
final `table_cursors`. -/
theorem C1_subbatch_bound_and_final_cursor :
    (∀ (cfg : Config) (tls : List String) (src : String → List (Row K))
      (st : List (String × K)) (cancel : Nat → Bool) (dest0 : List String)
      (fuel : Nat) (w : String × List (Row K)),
      w ∈ (update cfg tls src st cancel dest0 fuel).writes →
      w.2.length ≤ cfg.batch_process_size) ∧
    (∀ (cfg : Config) (tls : List String) (src : String → List (Row K))
      (st : List (String × K)) (cancel : Nat → Bool) (dest0 : List String)
      (fuel : Nat) (cs : List (String × Option K)),
      Ev.checkpoint cs ∈ (update cfg tls src st cancel dest0 fuel).events →
      ∀ (key : String) (c : K), dictGet cs key = some (some c) →
        c ∈ writtenKeys (update cfg tls src st cancel dest0 fuel).writes) ∧
    (∀ (qsize psize : Nat) (tname : String) (src : String → List (Row K))
      (st : List (String × K)) (cancel : Nat → Bool) (dest0 : List String) (fuel : Nat),
      (update ⟨psize, qsize, none⟩ [tname] src st cancel dest0 fuel).exit =
        RunExit.completed →
      (update ⟨psize, qsize, none⟩ [tname] src st cancel dest0 fuel).events.getLast? =
        some (Ev.checkpoint
          (update ⟨psize, qsize, none⟩ [tname] src st cancel dest0 fuel).tcs) ∧
      ∀ c : K,
        dictGet (update ⟨psize, qsize, none⟩ [tname] src st cancel dest0 fuel).tcs
            (tname ++ "_cursor") = some (some c) →
        c ∈ writtenKeys (update ⟨psize, qsize, none⟩ [tname] src st cancel dest0 fuel).writes) :=
  ⟨fun cfg tls src st cancel dest0 fuel w h =>
    updateGo_writes_le cancel cfg.batch_query_size cfg.batch_process_size
      cfg.only_tables src st fuel tls [] dest0 0 w h,
   update_checkpoint_written,
   update_single_completed⟩

/-- C1 (witness): the amended theorem applied concretely — the
counterexample run's first sub-batch of three rows satisfies the bound;
in the two-table run the second checkpoint carries `a_cursor = 2` and 2
is the key of a written row; and the completed single-table
counterexample run reports `t_cursor = 2`, also a written key. -/
theorem C1_subbatch_bound_and_final_cursor_witness :
    (("t", [(⟨0, 0⟩ : Row Nat), ⟨1, 1⟩, ⟨2, 2⟩]) :
        String × List (Row Nat)).2.length ≤ 3 ∧
    (2 : Nat) ∈ writtenKeys c1run2.writes ∧
    (2 : Nat) ∈ writtenKeys c1run.writes := by
  refine ⟨?_, ?_, ?_⟩
  · exact (C1_subbatch_bound_and_final_cursor (K := Nat)).1 ⟨3, 3, none⟩ ["t"]
      (fun _ => c1rows) [] (fun _ => false) [] 10 ("t", [⟨0, 0⟩, ⟨1, 1⟩, ⟨2, 2⟩])
      (by decide)
  · exact (C1_subbatch_bound_and_final_cursor (K := Nat)).2.1 ⟨2, 2, none⟩ ["a", "b"]
      (fun _ => [⟨0, 0⟩, ⟨1, 1⟩, ⟨2, 2⟩]) [] (fun _ => false) [] 10
      [("a_cursor", some 2), ("b_cursor", some 2)] (by decide) "a_cursor" 2 (by decide)
  · exact ((C1_subbatch_bound_and_final_cursor (K := Nat)).2.2 3 3 "t"
      (fun _ => c1rows) [] (fun _ => false) [] 10 (by decide)).2 2 (by decide)

end Connector
